import Mathlib

set_option maxHeartbeats 1000000

/- Verification development for the zoominfo-scrapper Electron application.
   The definitions below are a shallow embedding of the main-process module
   (src/electron/index.ts): JSON-like runtime values, the row normalizer
   transformResultToCsvRow, the header materializer extractHeadersFromCookies,
   the page rewriter setPageInPayload, the pause and resume handlers, and the
   pagination control loops of scrapeDataFunction and handleContactSearch. -/

/-- JSON-like runtime values of the scraper, including the JavaScript
undefined value, which is what property access for an absent field produces. -/
inductive Json where
  | undef
  | null
  | bool (b : Bool)
  | num (n : Int)
  | str (s : String)
  | arr (xs : List Json)
  | obj (fields : List (String × Json))

/-- JavaScript truthiness: undefined, null, false, 0 and the empty string are
falsy; every other value (including empty arrays and objects) is truthy. -/
def Json.truthy : Json → Bool
  | .undef => false
  | .null => false
  | .bool b => b
  | .num n => n != 0
  | .str s => s != ""
  | .arr _ => true
  | .obj _ => true

/-- Whether a value is null or undefined. -/
def Json.isNullish : Json → Bool
  | .undef => true
  | .null => true
  | _ => false

/-- The JavaScript expression a || b. -/
def jor (a b : Json) : Json := if a.truthy then a else b

/-- Property access a.k for a receiver that is not null or undefined: a field
lookup on an object, undefined on any other value. -/
def jget (j : Json) (k : String) : Json :=
  match j with
  | .obj fs =>
      match fs.find? (fun p => p.1 == k) with
      | some p => p.2
      | none => Json.undef
  | _ => Json.undef

/-- Index access a[i] for a receiver that is not null or undefined: an element
lookup on an array, the one-character string at position i on a string
(as in JavaScript), undefined on any other value. -/
def jindex (j : Json) (i : Nat) : Json :=
  match j with
  | .arr xs =>
      match xs.get? i with
      | some x => x
      | none => Json.undef
  | .str s =>
      match s.toList.get? i with
      | some c => .str (String.mk [c])
      | none => Json.undef
  | _ => Json.undef

/-- The optional-chaining access a?.k. -/
def optChain (j : Json) (k : String) : Json :=
  if j.isNullish then Json.undef else jget j k

/-- Property access on null or undefined raises a TypeError; every branch of
the normalizer reads a property of its argument before doing anything else,
so a nullish argument makes the whole branch throw. -/
def notNullish (j : Json) : Except String Json :=
  if j.isNullish then Except.error "TypeError" else Except.ok j

mutual
/-- JavaScript string conversion as performed by Array.prototype.join on the
elements of an array: nullish elements become the empty string, arrays join
their elements with commas, plain objects become the bracketed object tag. -/
def jsToStr : Json → String
  | .undef => ""
  | .null => ""
  | .bool b => if b then "true" else "false"
  | .num n => toString n
  | .str s => s
  | .arr xs => String.intercalate "," (jsToStrList xs)
  | .obj _ => "[object Object]"

def jsToStrList : List Json → List String
  | [] => []
  | x :: xs => jsToStr x :: jsToStrList xs
end

/-- The scoop-type code table of transformResultToCsvRow. -/
def scoopTypeMapping : List (String × String) :=
  [("11", "Open Position"), ("21", "Project"), ("20", "Painpoint"),
   ("4", "Mergers & Acquisitions"), ("9", "Product Launch")]

/-- The scoop-topic code table of transformResultToCsvRow. -/
def scoopTopicMapping : List (String × String) :=
  [("50", "Application Development"), ("115", "Enterprise Architecture"),
   ("226", "Artificial Intelligence"), ("61", "Product Development"),
   ("41", "Spending/Investment"), ("105", "Contingent Workforce"),
   ("116", "Financial Planning"), ("54", "Request for Proposal")]

/-- The element-by-element translation of the callback of
xs.map(t => table[t.toString()] || "Unknown"), which throws a TypeError at
the first null or undefined element (toString on null or undefined). -/
def scoopNamesM (tbl : List (String × String)) : List Json → Except String (List String)
  | [] => Except.ok []
  | t :: rest =>
      if t.isNullish then Except.error "TypeError"
      else do
        let tail ← scoopNamesM tbl rest
        Except.ok (((tbl.lookup (jsToStr t)).getD "Unknown") :: tail)

/-- The expression xs.map(t => table[t.toString()] || "Unknown").join(", ").
Calling map on a value that is not an array raises a TypeError, as does
calling toString on a null or undefined element. -/
def jmapJoin (tbl : List (String × String)) (j : Json) : Except String String :=
  match j with
  | .arr xs => do
      let names ← scoopNamesM tbl xs
      Except.ok (String.intercalate ", " names)
  | _ => Except.error "TypeError"

/-- transformResultToCsvRow (index.ts lines 548-688): map one raw result
record of a variant to a CSV row, an ordered list of column name / cell
value pairs. -/
def transformResultToCsvRow (apiType : String) (result0 : Json) :
    Except String (List (String × Json)) :=
  match apiType with
  | "Company Search" => do
      let result ← notNullish result0
      let location := jor (jget result "location") (Json.obj [])
      let topLevelIndustry := jor (jget result "topLevelIndustry") (Json.arr [])
      Except.ok
        [ ("Company ID", jor (jget result "companyID") (Json.str "")),
          ("Company Name", jor (jget result "companyName") (Json.str "")),
          ("Company Domain", jor (jget result "companyDomain") (Json.str "")),
          ("Company Type", jor (jget result "companyType") (Json.str "")),
          ("Company Phone", jor (jget result "companyPhone") (Json.str "")),
          ("Revenue", jor (jget result "revenue") (Json.str "")),
          ("Employees", jor (jget result "employees") (Json.str "")),
          ("Top Level Industry 0", jor (jindex topLevelIndustry 0) (Json.str "")),
          ("Top Level Industry 1", jor (jindex topLevelIndustry 1) (Json.str "")),
          ("Website", jor (jget result "website") (Json.str "")),
          ("Company Description", jor (jget result "companyDescription") (Json.str "")),
          ("City", jor (jget location "City") (Json.str "")),
          ("Country Code", jor (jget location "CountryCode") (Json.str "")),
          ("State", jor (jget location "State") (Json.str "")),
          ("Street", jor (jget location "Street") (Json.str "")),
          ("Zip", jor (jget location "Zip") (Json.str "")) ]
  | "Person Search" => do
      let result ← notNullish result0
      let socialUrlsParsed := jor (jget result "socialUrlsParsed") (Json.obj [])
      let location := jor (jget result "location") (Json.obj [])
      let employmentHistory :=
        jor (jget result "employmentHistory") (Json.arr [Json.obj []])
      let employmentHistory0 := jor (jindex employmentHistory 0) (Json.obj [])
      Except.ok
        [ ("First Name", jor (jget result "firstName") (Json.str "")),
          ("Last Name", jor (jget result "lastName") (Json.str "")),
          ("Job Title", jor (jget result "jobTitle") (Json.str "")),
          ("LinkedIn", jor (jget socialUrlsParsed "linkedin") (Json.str "")),
          ("Facebook", jor (jget socialUrlsParsed "facebook") (Json.str "")),
          ("Twitter", jor (jget socialUrlsParsed "twitter") (Json.str "")),
          ("Instagram", jor (jget socialUrlsParsed "instagram") (Json.str "")),
          ("Metro Area", jor (jget location "metroArea") (Json.str "")),
          ("City", jor (jget location "City") (Json.str "")),
          ("State", jor (jget location "State") (Json.str "")),
          ("Street", jor (jget location "Street") (Json.str "")),
          ("Zip", jor (jget location "Zip") (Json.str "")),
          ("Country Code", jor (jget location "CountryCode") (Json.str "")),
          ("Company Domain", jor (jget result "companyDomain") (Json.str "")),
          ("Company Name", jor (jget result "companyName") (Json.str "")),
          ("Company Phone", jor (jget result "companyPhone") (Json.str "")),
          ("Company Revenue", jor (jget result "companyRevenue") (Json.str "")),
          ("Company Website 0",
            jor (jget employmentHistory0 "companyWebsite") (Json.str "")),
          ("Company Description",
            jor (jget result "companyDescription") (Json.str "")) ]
  | "Contact Search" => do
      let result ← notNullish result0
      let companyAddress := jor (jget result "companyAddress") (Json.obj [])
      let location := jor (jget result "location") (Json.obj [])
      let topLevelIndustry := jor (jget result "topLevelIndustry") (Json.arr [])
      Except.ok
        [ ("Person ID", jor (jget result "personID") (Json.str "")),
          ("First Name", jor (jget result "firstName") (Json.str "")),
          ("Middle Initial", jor (jget result "middleInitial") (Json.str "")),
          ("Last Name", jor (jget result "lastName") (Json.str "")),
          ("Company", jor (jget result "title") (Json.str "")),
          ("Job Title", jor (jget result "jobTitle") (Json.str "")),
          ("Person Phone", jor (jget result "phone") (Json.str "")),
          ("Business Email", jor (jget result "personalEmail") (Json.str "")),
          ("Person Email", jor (jget result "email") (Json.str "")),
          ("LinkedIn", jor (jget result "LinkedIn") (Json.str "")),
          ("Facebook", jor (jget result "Facebook") (Json.str "")),
          ("Twitter", jor (jget result "Twitter") (Json.str "")),
          ("Instagram", jor (jget result "Instagram") (Json.str "")),
          ("Person Street", jor (jget location "Street") (Json.str "")),
          ("Person City", jor (jget location "City") (Json.str "")),
          ("Person State", jor (jget location "State") (Json.str "")),
          ("Person Zip", jor (jget location "Zip") (Json.str "")),
          ("Person Country", jor (jget location "CountryCode") (Json.str "")),
          ("Person Metro Area", jor (jget location "metroArea") (Json.str "")),
          ("Company ID", jor (jget result "companyID") (Json.str "")),
          ("Company Name", jor (jget result "companyName") (Json.str "")),
          ("Company Revenue", jor (jget result "companyRevenue") (Json.str "")),
          ("Company Employees", jor (jget result "companyEmployees") (Json.str "")),
          ("Company Domain", jor (jget result "companyDomain") (Json.str "")),
          ("Company Website", jor (jget result "website") (Json.str "")),
          ("Company Description",
            jor (jget result "companyDescription") (Json.str "")),
          ("Company Phone", jor (jget result "companyPhone") (Json.str "")),
          ("Company Ticker", jor (jget result "companyTicker") (Json.str "")),
          ("Top Level Industry", jor (jindex topLevelIndustry 0) (Json.str "")),
          ("Company Type", jor (jget result "companyType") (Json.str "")),
          ("Company Street", jor (jget companyAddress "Street") (Json.str "")),
          ("Company City", jor (jget companyAddress "City") (Json.str "")),
          ("Company State", jor (jget companyAddress "State") (Json.str "")),
          ("Company Zip", jor (jget companyAddress "Zip") (Json.str "")),
          ("Company Country", jor (jget companyAddress "CountryCode") (Json.str "")),
          ("Confidence Score", jor (jget result "confidenceScore") (Json.str "")) ]
  | "Scoops Search" => do
      let result ← notNullish result0
      let companyRecord := jor (jget result "companyRecord") (Json.obj [])
      let scoopTypes := jor (optChain (jget result "scoopTypes") "scoopType") (Json.arr [])
      let scoopTopics := jor (optChain (jget result "scoopTopics") "scoopTopic") (Json.arr [])
      let scoopTypeNames ← jmapJoin scoopTypeMapping scoopTypes
      let scoopTopicNames ← jmapJoin scoopTopicMapping scoopTopics
      Except.ok
        [ ("Published Date", jor (jget result "publishedDate") (Json.str "")),
          ("Company ID", jor (jget companyRecord "companyID") (Json.str "")),
          ("Company Name", jor (jget companyRecord "companyName") (Json.str "")),
          ("Company Domain", jor (jget companyRecord "companyDomain") (Json.str "")),
          ("Website", jor (jget companyRecord "website") (Json.str "")),
          ("Description", jor (jget result "description") (Json.str "")),
          ("Scoop ID", jor (jget result "scoopId") (Json.str "")),
          ("Scoop Type", jor (Json.str scoopTypeNames) (Json.str "")),
          ("Scoop Topic", jor (Json.str scoopTopicNames) (Json.str "")) ]
  | _ => Except.ok []

/-- One session cookie of the credential bundle. -/
structure Cookie where
  name : String
  value : String
deriving DecidableEq

/-- The cookie dictionary built by the assignment loop of
extractHeadersFromCookies: a later cookie with the same name overwrites an
earlier one, so a lookup sees the last occurrence. -/
def cookieLookup (cookies : List Cookie) (k : String) : Option String :=
  match cookies.reverse.find? (fun c => c.name == k) with
  | some c => some c.value
  | none => none

/-- The numeric value of one hexadecimal digit. -/
def hexVal (c : Char) : Option Nat :=
  if '0' ≤ c ∧ c ≤ '9' then some (c.toNat - '0'.toNat)
  else if 'a' ≤ c ∧ c ≤ 'f' then some (c.toNat - 'a'.toNat + 10)
  else if 'A' ≤ c ∧ c ≤ 'F' then some (c.toNat - 'A'.toNat + 10)
  else none

/-- Model of decodeURIComponent on a character list: every %XX escape with
two hexadecimal digits decodes to the character with code XX, and a % not
followed by two hexadecimal digits raises URIError (None). Multi-byte UTF-8
escapes are decoded bytewise; the URIError that JavaScript raises for an
invalid UTF-8 byte sequence is not modelled, and no theorem below depends
on that corner. -/
def percentDecodeChars : List Char → Option (List Char)
  | [] => some []
  | '%' :: c1 :: c2 :: rest => do
      let h1 ← hexVal c1
      let h2 ← hexVal c2
      let tail ← percentDecodeChars rest
      some (Char.ofNat (16 * h1 + h2) :: tail)
  | '%' :: _ => none
  | c :: rest => do
      let tail ← percentDecodeChars rest
      some (c :: tail)

/-- Model of decodeURIComponent. -/
def percentDecode (s : String) : Option String :=
  (percentDecodeChars s.toList).map (fun cs => String.mk cs)

/-- The replace(/^"|"$/g, "") step: strip one leading and one trailing
double quote if present. -/
def stripQuotes (s : String) : String :=
  let l := s.toList
  let l1 := match l with
    | '"' :: rest => rest
    | _ => l
  let l2 := if l1 ≠ [] ∧ l1.getLast? = some '"' then l1.dropLast else l1
  String.mk l2

/-- extractHeadersFromCookies (index.ts lines 468-519): build the outbound
header set from a credential bundle. The two session-identity tokens are
percent-decoded and quote-stripped first (a decode failure propagates), and
the materialization throws the missing-cookies error when any of the four
derived token values is falsy, that is, absent or empty. -/
def extractHeadersFromCookies (cookies : List Cookie) :
    Except String (List (String × String)) := do
  let userId := (cookieLookup cookies "userId").getD ""
  let ziaccesstoken := (cookieLookup cookies "ziaccesstoken").getD ""
  let ziidRaw := (cookieLookup cookies "ziid").getD ""
  let zisessionRaw := (cookieLookup cookies "zisession").getD ""
  let ziidDec ← match percentDecode ziidRaw with
    | some s => Except.ok s
    | none => Except.error "URI malformed"
  let zisessionDec ← match percentDecode zisessionRaw with
    | some s => Except.ok s
    | none => Except.error "URI malformed"
  let ziid := stripQuotes ziidDec
  let zisession := stripQuotes zisessionDec
  if userId = "" ∨ ziaccesstoken = "" ∨ ziid = "" ∨ zisession = "" then
    Except.error "Missing required cookies."
  else
    let cookieHeader := String.intercalate "; "
      (cookies.map (fun c => c.name ++ "=" ++ c.value))
    Except.ok
      [ ("authority", "app.zoominfo.com"),
        ("method", "POST"),
        ("scheme", "https"),
        ("accept", "application/json, text/plain, */*"),
        ("accept-encoding", "gzip, deflate, br, zstd"),
        ("accept-language", "en-US,en;q=0.9"),
        ("apollographql-client-name", "AiEmailPersonClient"),
        ("cache-control", "no-cache"),
        ("content-type", "application/json"),
        ("origin", "https://app.zoominfo.com"),
        ("pragma", "no-cache"),
        ("referer", "https://app.zoominfo.com/"),
        ("sec-ch-ua", "\"Not)A;Brand\";v=\"99\", \"Google Chrome\";v=\"127\", \"Chromium\";v=\"127\""),
        ("sec-ch-ua-mobile", "?0"),
        ("sec-ch-ua-platform", "\"macOS\""),
        ("sec-fetch-dest", "empty"),
        ("sec-fetch-mode", "cors"),
        ("sec-fetch-site", "same-origin"),
        ("session-token", "1"),
        ("user", userId),
        ("user-agent", "Mozilla/5.0 (Macintosh; Intel Mac OS X 10_15_7) AppleWebKit/537.36 (KHTML, like Gecko) Chrome/127.0.0.0 Safari/537.36"),
        ("x-requested-with", "XMLHttpRequest"),
        ("x-sourceid", "ZI_FOR_SALES"),
        ("x-ziaccesstoken", ziaccesstoken),
        ("x-ziid", ziid),
        ("x-zisession", zisession),
        ("Cookie", cookieHeader) ]

/-- getApiUrl (index.ts lines 521-532). -/
def getApiUrl (apiType : String) : Except String String :=
  match apiType with
  | "Company Search" =>
      Except.ok "https://app.zoominfo.com/profiles/graphql/companySearch"
  | "Person Search" =>
      Except.ok "https://app.zoominfo.com/profiles/graphql/personSearch"
  | "Scoops Search" =>
      Except.ok "https://app.zoominfo.com/profiles/graphql/scoopsAdvancedSearch"
  | _ => Except.error "Unknown API type."

/-- Lower-casing of one ASCII character, the model of toLowerCase on the
field names the scraper compares. -/
def lowerChar (c : Char) : Char :=
  if 'A' ≤ c ∧ c ≤ 'Z' then Char.ofNat (c.toNat + 32) else c

/-- Lower-casing of a field name, the model of key.toLowerCase(). -/
def lowerKey (s : String) : String := String.mk (s.toList.map lowerChar)

mutual
/-- setPageInPayload (index.ts lines 690-700): overwrite every field whose
name lower-cases to page with the page number; the loop recurses into
every other field value and into array elements, but never into the value
it just replaced. -/
def setPageInPayload (page : Nat) : Json → Json
  | .obj fs => .obj (setPageFields page fs)
  | .arr xs => .arr (setPageElems page xs)
  | j => j

def setPageFields (page : Nat) : List (String × Json) → List (String × Json)
  | [] => []
  | (k, v) :: rest =>
      (if lowerKey k = "page" then (k, Json.num page)
       else (k, setPageInPayload page v)) :: setPageFields page rest

def setPageElems (page : Nat) : List Json → List Json
  | [] => []
  | x :: rest => setPageInPayload page x :: setPageElems page rest
end

mutual
/-- JSON.parse(JSON.stringify(x)), the deep copy of index.ts line 192:
object fields holding undefined are dropped and undefined array elements
become null; on values containing no undefined it is the identity. -/
def jsonRoundTrip : Json → Json
  | .obj fs => .obj (roundTripFields fs)
  | .arr xs => .arr (roundTripElems xs)
  | j => j

def roundTripFields : List (String × Json) → List (String × Json)
  | [] => []
  | (k, v) :: rest =>
      match v with
      | .undef => roundTripFields rest
      | _ => (k, jsonRoundTrip v) :: roundTripFields rest

def roundTripElems : List Json → List Json
  | [] => []
  | x :: rest =>
      (match x with
       | .undef => Json.null
       | _ => jsonRoundTrip x) :: roundTripElems rest
end

mutual
/-- Whether a value contains no occurrence of undefined; every payload
obtained from JSON.parse satisfies this. -/
def Json.noUndef : Json → Bool
  | .undef => false
  | .obj fs => noUndefFields fs
  | .arr xs => noUndefElems xs
  | _ => true

def noUndefFields : List (String × Json) → Bool
  | [] => true
  | (_, v) :: rest => v.noUndef && noUndefFields rest

def noUndefElems : List Json → Bool
  | [] => true
  | x :: rest => x.noUndef && noUndefElems rest
end

/-- The request body of one page-fetch cycle (index.ts lines 191-193):
deep-copy the template, then set every page field to the current page. -/
def buildPagePayload (template : Json) (page : Nat) : Json :=
  setPageInPayload page (jsonRoundTrip template)

/-- One step of a path into a JSON tree: an object field or an array index. -/
inductive PathStep where
  | field (k : String)
  | index (i : Nat)

/-- Follow one path step. -/
def getStep (j : Json) : PathStep → Option Json
  | .field k =>
      match j with
      | .obj fs => (fs.find? (fun p => p.1 == k)).map (fun p => p.2)
      | _ => none
  | .index i =>
      match j with
      | .arr xs => xs.get? i
      | _ => none

/-- Follow a path into a JSON tree. -/
def getPath (j : Json) : List PathStep → Option Json
  | [] => some j
  | s :: rest =>
      match getStep j s with
      | some v => getPath v rest
      | none => none

/-- Whether a path step is not a field whose name lower-cases to page. -/
def stepPageFree : PathStep → Bool
  | .field k => !(lowerKey k == "page")
  | .index _ => true

/-- Whether no step of a path is a page-named field. -/
def pathPageFree (path : List PathStep) : Bool := path.all stepPageFree

/-- Whether a value is neither an object nor an array. -/
def Json.isScalar : Json → Bool
  | .obj _ => false
  | .arr _ => false
  | _ => true

/-- The three global run flags of the main process. -/
structure RunFlags where
  isScraping : Bool
  isPaused : Bool
  wasStopped : Bool
deriving DecidableEq

/-- The pause-scraping handler (index.ts lines 64-66): it sets the paused
flag unconditionally. -/
def pauseOp (s : RunFlags) : RunFlags := { s with isPaused := true }

/-- The resume-scraping handler (index.ts lines 68-72): it clears the paused
flag only when a run is in progress and paused. -/
def resumeOp (s : RunFlags) : RunFlags :=
  if s.isScraping && s.isPaused then { s with isPaused := false } else s

/-- The outcome the remote endpoint supplies for one issued request: a
successful response (with the already-extracted result list), an HTTP
401/403 auth failure together with the credential update the shell later
supplies, or any other failure. -/
inductive FetchOutcome where
  | ok (results : List Json)
  | authFail
  | otherFail (msg : String)

/-- A notification sent to the renderer. -/
inductive Note where
  | errorNote (msg : String)
  | credentialsNeeded
  | finished
  | stopped
deriving DecidableEq

/-- One observable action of a run, in order of occurrence: an outbound
page request carrying its page number, an outbound detail request, a CSV
row written, a progress update, an inter-request delay, the suspension on
the credential-refresh wait, or a notification. -/
inductive RunAction where
  | request (page : Nat)
  | detailRequest
  | row
  | progress
  | delay
  | awaitCredentials
  | note (n : Note)
deriving DecidableEq

/-- Whether the modelled run ran to completion of its control function, or
the supplied outcome trace ended while the loop still wanted to issue
another request (the run is still in flight). -/
inductive LoopExit where
  | normal
  | incomplete
deriving DecidableEq

/-- The inner result-writing loop of scrapeDataFunction (index.ts lines
210-227): write a row, count it, send progress, and break the moment the
target is reached. -/
def writeRows (total : Nat) : List Json → Nat → List RunAction × Nat
  | [], collected => ([], collected)
  | _ :: rest, collected =>
      if total ≤ collected + 1 then ([RunAction.row, RunAction.progress], collected + 1)
      else
        let w := writeRows total rest (collected + 1)
        (RunAction.row :: RunAction.progress :: w.1, w.2)

/-- The page loop of scrapeDataFunction (index.ts lines 175-251) for a run
during which stop and pause are never invoked (stop and pause only make the
loop exit early at its check points and change no emitted notification
other than suppressing later ones). Each list element of the outcome trace
answers one issued request. On a 401/403 the loop notifies, suspends until
a credential update arrives, and retries with the same page counter and no
delay; on any other failure it notifies the error and returns; on an empty
result page it returns, notifying a no-data error only when nothing was
collected yet; otherwise it writes rows, advances the page and sleeps
before the next cycle. -/
def scrapeLoop (total : Nat) : List FetchOutcome → Nat → Nat → List RunAction × LoopExit
  | [], collected, _ =>
      if total ≤ collected then ([], .normal) else ([], .incomplete)
  | o :: rest, collected, page =>
      if total ≤ collected then ([], .normal)
      else
        match o with
        | .authFail =>
            let r := scrapeLoop total rest collected page
            (RunAction.request page :: RunAction.note Note.credentialsNeeded ::
               RunAction.awaitCredentials :: r.1, r.2)
        | .otherFail msg =>
            ([RunAction.request page, RunAction.note (Note.errorNote ("Error: " ++ msg))],
             .normal)
        | .ok results =>
            if results.isEmpty then
              if collected = 0 then
                ([RunAction.request page,
                  RunAction.note (Note.errorNote "No data found for the given payload.")],
                 .normal)
              else ([RunAction.request page], .normal)
            else
              let w := writeRows total results collected
              if total ≤ w.2 then (RunAction.request page :: w.1, .normal)
              else
                let r := scrapeLoop total rest w.2 (page + 1)
                (RunAction.request page :: w.1 ++ RunAction.delay :: r.1, r.2)

/-- The person-id collection loop of handleContactSearch phase 1 (index.ts
lines 307-318): before each person the loop breaks if the target is
reached; a person with a truthy personID is appended, any other person is
skipped. -/
def collectIds (total : Nat) : List Json → List Json → List Json
  | [], ids => ids
  | person :: rest, ids =>
      if total ≤ ids.length then ids
      else
        let pid := jget person "personID"
        collectIds total rest (if pid.truthy then ids ++ [pid] else ids)

/-- Phase 1 of handleContactSearch (index.ts lines 274-352) under the same
no-stop, no-pause convention as scrapeLoop: accumulate person ids page by
page, with one progress update per page fetch, the same credential-refresh
retry of the same page, and the same termination conditions. -/
def phase1Loop (total : Nat) : List FetchOutcome → List Json → Nat →
    List RunAction × List Json × LoopExit
  | [], ids, _ =>
      if total ≤ ids.length then ([], ids, .normal) else ([], ids, .incomplete)
  | o :: rest, ids, page =>
      if total ≤ ids.length then ([], ids, .normal)
      else
        match o with
        | .authFail =>
            let r := phase1Loop total rest ids page
            (RunAction.request page :: RunAction.note Note.credentialsNeeded ::
               RunAction.awaitCredentials :: r.1, r.2.1, r.2.2)
        | .otherFail msg =>
            ([RunAction.request page, RunAction.note (Note.errorNote ("Error: " ++ msg))],
             ids, .normal)
        | .ok results =>
            if results.isEmpty then
              if ids.isEmpty then
                ([RunAction.request page,
                  RunAction.note (Note.errorNote "No data found for the given payload.")],
                 ids, .normal)
              else ([RunAction.request page], ids, .normal)
            else
              let ids2 := collectIds total results ids
              if total ≤ ids2.length then
                ([RunAction.request page, RunAction.progress], ids2, .normal)
              else
                let r := phase1Loop total rest ids2 (page + 1)
                (RunAction.request page :: RunAction.progress :: RunAction.delay :: r.1,
                 r.2.1, r.2.2)

/-- The inner contact-writing loop of handleContactSearch phase 2 (index.ts
lines 387-402): write a row, count it, and break the moment the target is
reached. -/
def contactWrite (total : Nat) : List Json → Nat → List RunAction × Nat
  | [], collected => ([], collected)
  | _ :: rest, collected =>
      if total ≤ collected + 1 then ([RunAction.row], collected + 1)
      else
        let w := contactWrite total rest (collected + 1)
        (RunAction.row :: w.1, w.2)

/-- Phase 2 of handleContactSearch (index.ts lines 356-438) under the
no-stop, no-pause convention: one detail request per collected id; an empty
detail response skips to the next id; a 401/403 notifies, suspends for the
credential refresh and then also moves on to the next id; any other failure
notifies the error and returns; rows from one response are written until
the target is reached. -/
def phase2Loop (total : Nat) : List Json → List FetchOutcome → Nat →
    List RunAction × LoopExit
  | [], _, _ => ([], .normal)
  | _ :: idsRest, outs, collected =>
      if total ≤ collected then ([], .normal)
      else
        match outs with
        | [] => ([], .incomplete)
        | o :: orest =>
          match o with
          | .authFail =>
              let r := phase2Loop total idsRest orest collected
              (RunAction.detailRequest :: RunAction.note Note.credentialsNeeded ::
                 RunAction.awaitCredentials :: r.1, r.2)
          | .otherFail msg =>
              ([RunAction.detailRequest, RunAction.note (Note.errorNote ("Error: " ++ msg))],
               .normal)
          | .ok contacts =>
              if contacts.isEmpty then
                let r := phase2Loop total idsRest orest collected
                (RunAction.detailRequest :: r.1, r.2)
              else
                let w := contactWrite total contacts collected
                if total ≤ w.2 then
                  (RunAction.detailRequest :: w.1 ++ [RunAction.progress], .normal)
                else
                  let r := phase2Loop total idsRest orest w.2
                  (RunAction.detailRequest :: w.1 ++ RunAction.progress :: RunAction.delay :: r.1,
                   r.2)

/-- handleContactSearch (index.ts lines 254-439): phase 1 collects ids from
page fetches, phase 2 then issues one detail request per collected id. -/
def contactEvents (total : Nat) (p1outs p2outs : List FetchOutcome) :
    List RunAction × LoopExit :=
  let r1 := phase1Loop total p1outs [] 1
  if r1.2.2 = LoopExit.normal then
    let r2 := phase2Loop total r1.2.1 p2outs 0
    (r1.1 ++ r2.1, r2.2)
  else (r1.1, LoopExit.incomplete)

/-- The run configuration received by the start-scraping handler. The
startIdx field is carried by the ScrapeData type and validated by the
renderer, and the payload template carries its own page fields; neither is
consulted when the page counter is initialized. -/
structure ScrapeDataM where
  apiType : String
  cookies : List Cookie
  totalResults : Nat
  startIdx : Nat

/-- startScraping (index.ts lines 124-162) for a run during which stop and
pause are never invoked: materialize headers (an error notification and
nothing else on failure), run the matching controller, and after a
controller that returned normally, emit the finished notification. An
unknown api type makes getApiUrl throw inside the controller; that
exception crosses to the catch of startScraping, which emits one error
notification and no finished notification. Note that a controller that
swallowed a request failure by notifying an error still returns normally,
so the finished notification follows it. -/
def startScrapingEvents (sd : ScrapeDataM) (outs p2outs : List FetchOutcome) :
    List RunAction × LoopExit :=
  match extractHeadersFromCookies sd.cookies with
  | .error msg => ([RunAction.note (Note.errorNote ("Error: " ++ msg))], .normal)
  | .ok _ =>
      if sd.apiType = "Contact Search" then
        let r := contactEvents sd.totalResults outs p2outs
        if r.2 = LoopExit.normal then (r.1 ++ [RunAction.note Note.finished], .normal)
        else (r.1, LoopExit.incomplete)
      else
        match getApiUrl sd.apiType with
        | .error msg => ([RunAction.note (Note.errorNote ("Error: " ++ msg))], .normal)
        | .ok _ =>
            let r := scrapeLoop sd.totalResults outs 0 1
            if r.2 = LoopExit.normal then (r.1 ++ [RunAction.note Note.finished], .normal)
            else (r.1, LoopExit.incomplete)

/-- What becomes of a controller suspended on waitForCookiesUpdate when the
update-cookies message arrives. -/
inductive WaitResult where
  | resumed (headers : List (String × String))
  | hung
deriving DecidableEq

/-- The update-cookies listener installed by waitForCookiesUpdate (index.ts
lines 702-712): when extractHeadersFromCookies succeeds, resolve runs and
the suspended controller resumes with the new headers; when it throws, the
throw happens before resolve is reached, so the promise never settles, the
controller stays suspended indefinitely, and no notification of any kind is
emitted. -/
def waitForCookiesUpdate (newCookies : List Cookie) : WaitResult :=
  match extractHeadersFromCookies newCookies with
  | .ok h => WaitResult.resumed h
  | .error _ => WaitResult.hung

/-- Whether an action is a written CSV row. -/
def isRowAction : RunAction → Bool
  | .row => true
  | _ => false

/-- The number of CSV rows written in a trace. -/
def countRows (as : List RunAction) : Nat := as.countP isRowAction

/-- Whether an action is the finished notification. -/
def isFinishedNote : RunAction → Bool
  | .note .finished => true
  | _ => false

/-- The number of finished notifications in a trace. -/
def countFinished (as : List RunAction) : Nat := as.countP isFinishedNote

/-- Whether an action is the stopped notification. -/
def isStoppedNote : RunAction → Bool
  | .note .stopped => true
  | _ => false

/-- The number of stopped notifications in a trace. -/
def countStopped (as : List RunAction) : Nat := as.countP isStoppedNote

/-- Whether an action is an error notification. -/
def isErrorNote : RunAction → Bool
  | .note (.errorNote _) => true
  | _ => false

/-- Whether an action is one of the three terminal notifications of the
specification: finished, stopped, or error. -/
def isTerminalNote (a : RunAction) : Bool :=
  isFinishedNote a || isStoppedNote a || isErrorNote a

/-- The number of terminal notifications in a trace. -/
def countTerminal (as : List RunAction) : Nat := as.countP isTerminalNote

/-- The page number of the first outbound page request of a trace. -/
def firstRequestPage (as : List RunAction) : Option Nat :=
  as.findSome? (fun a =>
    match a with
    | .request p => some p
    | _ => none)

/-- Whether an Except value is a failure. -/
def exceptFails {α : Type} (e : Except String α) : Bool :=
  match e with
  | .ok _ => false
  | .error _ => true

/-- A credential bundle on which header materialization succeeds. -/
def sampleCookies : List Cookie :=
  [⟨"userId", "12345"⟩, ⟨"ziaccesstoken", "tok"⟩,
   ⟨"ziid", "abc"⟩, ⟨"zisession", "xyz"⟩]

/-- Claim-side predicate, following the words of the specification: one of
the four required named tokens is missing from the bundle. -/
def someRequiredTokenMissing (cookies : List Cookie) : Bool :=
  !(cookies.any (fun c => c.name == "userId")) ||
  !(cookies.any (fun c => c.name == "ziaccesstoken")) ||
  !(cookies.any (fun c => c.name == "ziid")) ||
  !(cookies.any (fun c => c.name == "zisession")) 

/-- Claim-side predicate, following the words of the specification: the
percent-decoding step of one of the two session-identity tokens throws. -/
def someDecodeStepFails (cookies : List Cookie) : Bool :=
  (percentDecode ((cookieLookup cookies "ziid").getD "")).isNone ||
  (percentDecode ((cookieLookup cookies "zisession").getD "")).isNone

/-- The condition under which extractHeadersFromCookies actually fails:
a required token is absent or empty, a decode step throws, or a decoded
and quote-stripped session-identity token is empty. -/
def materializeFailCond (cookies : List Cookie) : Bool :=
  ((cookieLookup cookies "userId").getD "" == "") ||
  ((cookieLookup cookies "ziaccesstoken").getD "" == "") ||
  (match percentDecode ((cookieLookup cookies "ziid").getD "") with
   | none => true
   | some s => stripQuotes s == "") ||
  (match percentDecode ((cookieLookup cookies "zisession").getD "") with
   | none => true
   | some s => stripQuotes s == "")

/-- Build a row from a list of column-name / source-extractor pairs: each
cell is the extracted source value defaulted to the empty string, exactly
the shape result.field || two-quote default used by every cell of the
normalizer. -/
def rowFromSpecs (specs : List (String × (Json → Json))) (r : Json) :
    List (String × Json) :=
  specs.map (fun p => (p.1, jor (p.2 r) (Json.str "")))

/-- The fixed column schema of the company variant. -/
def companyColumns : List String :=
  ["Company ID", "Company Name", "Company Domain", "Company Type",
   "Company Phone", "Revenue", "Employees", "Top Level Industry 0",
   "Top Level Industry 1", "Website", "Company Description", "City",
   "Country Code", "State", "Street", "Zip"]

/-- The fixed column schema of the person variant. -/
def personColumns : List String :=
  ["First Name", "Last Name", "Job Title", "LinkedIn", "Facebook",
   "Twitter", "Instagram", "Metro Area", "City", "State", "Street", "Zip",
   "Country Code", "Company Domain", "Company Name", "Company Phone",
   "Company Revenue", "Company Website 0", "Company Description"]

/-- The fixed column schema of the contact variant. -/
def contactColumns : List String :=
  ["Person ID", "First Name", "Middle Initial", "Last Name", "Company",
   "Job Title", "Person Phone", "Business Email", "Person Email",
   "LinkedIn", "Facebook", "Twitter", "Instagram", "Person Street",
   "Person City", "Person State", "Person Zip", "Person Country",
   "Person Metro Area", "Company ID", "Company Name", "Company Revenue",
   "Company Employees", "Company Domain", "Company Website",
   "Company Description", "Company Phone", "Company Ticker",
   "Top Level Industry", "Company Type", "Company Street", "Company City",
   "Company State", "Company Zip", "Company Country", "Confidence Score"]

/-- The fixed column schema of the scoop variant. -/
def scoopsColumns : List String :=
  ["Published Date", "Company ID", "Company Name", "Company Domain",
   "Website", "Description", "Scoop ID", "Scoop Type", "Scoop Topic"]

/-- Column-by-column source extractors of the company variant, read off the
corresponding cells of transformResultToCsvRow. -/
def companyCellSpecs : List (String × (Json → Json)) :=
  [("Company ID", fun r => jget r "companyID"),
   ("Company Name", fun r => jget r "companyName"),
   ("Company Domain", fun r => jget r "companyDomain"),
   ("Company Type", fun r => jget r "companyType"),
   ("Company Phone", fun r => jget r "companyPhone"),
   ("Revenue", fun r => jget r "revenue"),
   ("Employees", fun r => jget r "employees"),
   ("Top Level Industry 0",
     fun r => jindex (jor (jget r "topLevelIndustry") (Json.arr [])) 0),
   ("Top Level Industry 1",
     fun r => jindex (jor (jget r "topLevelIndustry") (Json.arr [])) 1),
   ("Website", fun r => jget r "website"),
   ("Company Description", fun r => jget r "companyDescription"),
   ("City", fun r => jget (jor (jget r "location") (Json.obj [])) "City"),
   ("Country Code", fun r => jget (jor (jget r "location") (Json.obj [])) "CountryCode"),
   ("State", fun r => jget (jor (jget r "location") (Json.obj [])) "State"),
   ("Street", fun r => jget (jor (jget r "location") (Json.obj [])) "Street"),
   ("Zip", fun r => jget (jor (jget r "location") (Json.obj [])) "Zip")]

/-- Column-by-column source extractors of the person variant. -/
def personCellSpecs : List (String × (Json → Json)) :=
  [("First Name", fun r => jget r "firstName"),
   ("Last Name", fun r => jget r "lastName"),
   ("Job Title", fun r => jget r "jobTitle"),
   ("LinkedIn", fun r => jget (jor (jget r "socialUrlsParsed") (Json.obj [])) "linkedin"),
   ("Facebook", fun r => jget (jor (jget r "socialUrlsParsed") (Json.obj [])) "facebook"),
   ("Twitter", fun r => jget (jor (jget r "socialUrlsParsed") (Json.obj [])) "twitter"),
   ("Instagram", fun r => jget (jor (jget r "socialUrlsParsed") (Json.obj [])) "instagram"),
   ("Metro Area", fun r => jget (jor (jget r "location") (Json.obj [])) "metroArea"),
   ("City", fun r => jget (jor (jget r "location") (Json.obj [])) "City"),
   ("State", fun r => jget (jor (jget r "location") (Json.obj [])) "State"),
   ("Street", fun r => jget (jor (jget r "location") (Json.obj [])) "Street"),
   ("Zip", fun r => jget (jor (jget r "location") (Json.obj [])) "Zip"),
   ("Country Code", fun r => jget (jor (jget r "location") (Json.obj [])) "CountryCode"),
   ("Company Domain", fun r => jget r "companyDomain"),
   ("Company Name", fun r => jget r "companyName"),
   ("Company Phone", fun r => jget r "companyPhone"),
   ("Company Revenue", fun r => jget r "companyRevenue"),
   ("Company Website 0",
     fun r => jget (jor (jindex (jor (jget r "employmentHistory")
       (Json.arr [Json.obj []])) 0) (Json.obj [])) "companyWebsite"),
   ("Company Description", fun r => jget r "companyDescription")]

/-- Column-by-column source extractors of the contact variant. -/
def contactCellSpecs : List (String × (Json → Json)) :=
  [("Person ID", fun r => jget r "personID"),
   ("First Name", fun r => jget r "firstName"),
   ("Middle Initial", fun r => jget r "middleInitial"),
   ("Last Name", fun r => jget r "lastName"),
   ("Company", fun r => jget r "title"),
   ("Job Title", fun r => jget r "jobTitle"),
   ("Person Phone", fun r => jget r "phone"),
   ("Business Email", fun r => jget r "personalEmail"),
   ("Person Email", fun r => jget r "email"),
   ("LinkedIn", fun r => jget r "LinkedIn"),
   ("Facebook", fun r => jget r "Facebook"),
   ("Twitter", fun r => jget r "Twitter"),
   ("Instagram", fun r => jget r "Instagram"),
   ("Person Street", fun r => jget (jor (jget r "location") (Json.obj [])) "Street"),
   ("Person City", fun r => jget (jor (jget r "location") (Json.obj [])) "City"),
   ("Person State", fun r => jget (jor (jget r "location") (Json.obj [])) "State"),
   ("Person Zip", fun r => jget (jor (jget r "location") (Json.obj [])) "Zip"),
   ("Person Country", fun r => jget (jor (jget r "location") (Json.obj [])) "CountryCode"),
   ("Person Metro Area", fun r => jget (jor (jget r "location") (Json.obj [])) "metroArea"),
   ("Company ID", fun r => jget r "companyID"),
   ("Company Name", fun r => jget r "companyName"),
   ("Company Revenue", fun r => jget r "companyRevenue"),
   ("Company Employees", fun r => jget r "companyEmployees"),
   ("Company Domain", fun r => jget r "companyDomain"),
   ("Company Website", fun r => jget r "website"),
   ("Company Description", fun r => jget r "companyDescription"),
   ("Company Phone", fun r => jget r "companyPhone"),
   ("Company Ticker", fun r => jget r "companyTicker"),
   ("Top Level Industry",
     fun r => jindex (jor (jget r "topLevelIndustry") (Json.arr [])) 0),
   ("Company Type", fun r => jget r "companyType"),
   ("Company Street", fun r => jget (jor (jget r "companyAddress") (Json.obj [])) "Street"),
   ("Company City", fun r => jget (jor (jget r "companyAddress") (Json.obj [])) "City"),
   ("Company State", fun r => jget (jor (jget r "companyAddress") (Json.obj [])) "State"),
   ("Company Zip", fun r => jget (jor (jget r "companyAddress") (Json.obj [])) "Zip"),
   ("Company Country", fun r => jget (jor (jget r "companyAddress") (Json.obj [])) "CountryCode"),
   ("Confidence Score", fun r => jget r "confidenceScore")]

/-- The total value of xs.map(t => table[t.toString()] || "Unknown").join(", ")
on a well-formed code list, and the value the cell falls back to otherwise. -/
def scoopJoinNames (tbl : List (String × String)) (j : Json) : String :=
  match j with
  | .arr xs =>
      String.intercalate ", "
        (xs.map (fun t => (tbl.lookup (jsToStr t)).getD "Unknown"))
  | _ => ""

/-- Whether the chained access base?.key || two-bracket default evaluates to
an array of non-nullish code entries, which is exactly the condition under
which the map and toString calls of the scoop branch cannot throw. -/
def scoopFieldOk (key : String) (base : Json) : Bool :=
  match jor (optChain base key) (Json.arr []) with
  | .arr xs => xs.all (fun x => !x.isNullish)
  | _ => false

/-- Column-by-column source extractors of the scoop variant; the two
code-mapped columns extract the joined, already-translated name string. -/
def scoopsCellSpecs : List (String × (Json → Json)) :=
  [("Published Date", fun r => jget r "publishedDate"),
   ("Company ID", fun r => jget (jor (jget r "companyRecord") (Json.obj [])) "companyID"),
   ("Company Name", fun r => jget (jor (jget r "companyRecord") (Json.obj [])) "companyName"),
   ("Company Domain", fun r => jget (jor (jget r "companyRecord") (Json.obj [])) "companyDomain"),
   ("Website", fun r => jget (jor (jget r "companyRecord") (Json.obj [])) "website"),
   ("Description", fun r => jget r "description"),
   ("Scoop ID", fun r => jget r "scoopId"),
   ("Scoop Type", fun r => Json.str (scoopJoinNames scoopTypeMapping
      (jor (optChain (jget r "scoopTypes") "scoopType") (Json.arr [])))),
   ("Scoop Topic", fun r => Json.str (scoopJoinNames scoopTopicMapping
      (jor (optChain (jget r "scoopTopics") "scoopTopic") (Json.arr []))))]

/-- The falsy scalar values named by the claim: 0, false, null and the
empty string. -/
def falsyScalarValue (x : Json) : Prop :=
  x = Json.num 0 ∨ x = Json.bool false ∨ x = Json.null ∨ x = Json.str ""

/-- Remove every binding of a field name from a record. -/
def removeField (fs : List (String × Json)) (f : String) : List (String × Json) :=
  fs.filter (fun p => !(p.1 == f))

/-- The literal claim about page rewriting, at template t and page number p:
every field whose name lower-cases to page, at any depth, is set to p, and
every other (scalar-valued) field is unchanged from the template. -/
def PageRewriteClaim (t : Json) (p : Nat) : Prop :=
  (∀ path k v, lowerKey k = "page" →
     getPath t (path ++ [PathStep.field k]) = some v →
     getPath (buildPagePayload t p) (path ++ [PathStep.field k]) =
       some (Json.num p)) ∧
  (∀ path k v, ¬(lowerKey k = "page") → v.isScalar = true →
     getPath t (path ++ [PathStep.field k]) = some v →
     getPath (buildPagePayload t p) (path ++ [PathStep.field k]) = some v)

/-- A template in which one page field is nested inside the value of
another page field. -/
def nestedPageTemplate : Json :=
  Json.obj [("page", Json.obj [("page", Json.num 3), ("other", Json.num 4)])]

/-- Whether the flags describe a run in the Running lifecycle state of the
specification: a run in progress that is not paused. -/
def isRunningState (s : RunFlags) : Bool := s.isScraping && !s.isPaused

/-- Whether the flags describe a run in the Paused lifecycle state. -/
def isPausedState (s : RunFlags) : Bool := s.isScraping && s.isPaused

/-- C9 counterexample: with no run in progress (all flags false) the state
is not Running, yet the pause operation changes the state, so the claim
that pause is a no-op whenever no run is Running is false. -/
theorem c9_counterexample :
    isRunningState ⟨false, false, false⟩ = false ∧
    pauseOp ⟨false, false, false⟩ ≠ (⟨false, false, false⟩ : RunFlags) := by
  decide

/-- C9 amended: the pause handler sets the paused flag unconditionally,
whatever the lifecycle state, and changes nothing else; the resume handler
is a no-op unless a run is in progress and paused, in which case it clears
the paused flag. -/
theorem c9_pause_resume_amended (s : RunFlags) :
    (pauseOp s).isPaused = true ∧
    (pauseOp s).isScraping = s.isScraping ∧
    (pauseOp s).wasStopped = s.wasStopped ∧
    (isPausedState s = false → resumeOp s = s) ∧
    (isPausedState s = true → resumeOp s = { s with isPaused := false }) := by
  refine ⟨rfl, rfl, rfl, ?_, ?_⟩ <;> intro h
  · have hb : (s.isScraping && s.isPaused) = false := h
    simp [resumeOp, hb]
  · have hb : (s.isScraping && s.isPaused) = true := h
    simp [resumeOp, hb]

/-- C9 witness: a running, paused run resumes to running. -/
theorem c9_witness : resumeOp ⟨true, true, false⟩ = (⟨true, false, false⟩ : RunFlags) :=
  (c9_pause_resume_amended ⟨true, true, false⟩).2.2.2.2 rfl

/-- C3: the first outbound request of a run carries page number 1 for every
configured starting offset s, both for the single-phase controller and for
phase 1 of the two-phase controller; the startIdx field of the
configuration is never consulted. -/
theorem c3_start_page_ignored :
    (∀ s : Nat, firstRequestPage
      (startScrapingEvents ⟨"Company Search", sampleCookies, 10, s⟩
        [FetchOutcome.ok [Json.obj []]] []).1 = some 1) ∧
    (∀ s : Nat, firstRequestPage
      (startScrapingEvents ⟨"Contact Search", sampleCookies, 10, s⟩
        [FetchOutcome.ok [Json.obj [("personID", Json.str "p1")]]] []).1 = some 1) := by
  constructor <;> intro s <;> rfl

/-- C8: supplying a credential bundle whose materialization fails (here the
empty bundle) while a controller is suspended on waitForCookiesUpdate
leaves the controller suspended forever instead of aborting the run with an
error notification, while a valid bundle resumes it. -/
theorem c8_invalid_refresh_hangs :
    waitForCookiesUpdate [] = WaitResult.hung ∧
    exceptFails (extractHeadersFromCookies []) = true ∧
    waitForCookiesUpdate sampleCookies ≠ WaitResult.hung := by
  refine ⟨rfl, rfl, ?_⟩
  decide

/-- Whatever the next outcome is, a loop cycle that is still below the
target opens with the page request for the current page counter. -/
theorem scrapeLoop_cons_starts_request (total c n : Nat) (o : FetchOutcome)
    (rest : List FetchOutcome) (h : c < total) :
    ∃ t, (scrapeLoop total (o :: rest) c n).1 = RunAction.request n :: t := by
  have hg : ¬ total ≤ c := Nat.not_le.mpr h
  cases o with
  | authFail =>
      exact ⟨RunAction.note Note.credentialsNeeded :: RunAction.awaitCredentials ::
        (scrapeLoop total rest c n).1, by simp [scrapeLoop, hg]⟩
  | otherFail msg =>
      exact ⟨[RunAction.note (Note.errorNote ("Error: " ++ msg))],
        by simp [scrapeLoop, hg]⟩
  | ok results =>
      simp only [scrapeLoop, hg, if_false]
      split
      · split
        · exact ⟨_, rfl⟩
        · exact ⟨_, rfl⟩
      · split
        · exact ⟨_, rfl⟩
        · exact ⟨_, rfl⟩

/-- Same opening-request fact for phase 1 of the two-phase controller. -/
theorem phase1Loop_cons_starts_request (total n : Nat) (ids : List Json)
    (o : FetchOutcome) (rest : List FetchOutcome) (h : ids.length < total) :
    ∃ t, (phase1Loop total (o :: rest) ids n).1 = RunAction.request n :: t := by
  have hg : ¬ total ≤ ids.length := Nat.not_le.mpr h
  cases o with
  | authFail =>
      exact ⟨RunAction.note Note.credentialsNeeded :: RunAction.awaitCredentials ::
        (phase1Loop total rest ids n).1, by simp [phase1Loop, hg]⟩
  | otherFail msg =>
      exact ⟨[RunAction.note (Note.errorNote ("Error: " ++ msg))],
        by simp [phase1Loop, hg]⟩
  | ok results =>
      simp only [phase1Loop, hg, if_false]
      split
      · split
        · exact ⟨_, rfl⟩
        · exact ⟨_, rfl⟩
      · split
        · exact ⟨_, rfl⟩
        · exact ⟨_, rfl⟩

/-- C2: when a page fetch at page counter n fails with 401/403, the
controller emits the credentials-needed notification, suspends on the
credential-refresh wait, and then continues the loop with the page counter
still n and the collected count unchanged, inserting no delay; the
continued loop's very next action is the request for page n again. This
holds for the single-phase loop and for phase 1 of the two-phase loop. -/
theorem c2_auth_retry_same_page (o : FetchOutcome) (rest : List FetchOutcome)
    (total c n : Nat) (ids : List Json)
    (h : c < total) (hids : ids.length < total) :
    (scrapeLoop total (FetchOutcome.authFail :: o :: rest) c n).1 =
      RunAction.request n :: RunAction.note Note.credentialsNeeded ::
      RunAction.awaitCredentials :: (scrapeLoop total (o :: rest) c n).1 ∧
    (∃ t, (scrapeLoop total (o :: rest) c n).1 = RunAction.request n :: t) ∧
    (phase1Loop total (FetchOutcome.authFail :: o :: rest) ids n).1 =
      RunAction.request n :: RunAction.note Note.credentialsNeeded ::
      RunAction.awaitCredentials :: (phase1Loop total (o :: rest) ids n).1 ∧
    (∃ t, (phase1Loop total (o :: rest) ids n).1 = RunAction.request n :: t) :=
  ⟨by simp [scrapeLoop, Nat.not_le.mpr h],
   scrapeLoop_cons_starts_request total c n o rest h,
   by simp [phase1Loop, Nat.not_le.mpr hids],
   phase1Loop_cons_starts_request total n ids o rest hids⟩

/-- C2 witness: a concrete run hitting a 401 on page 3 with target 1. -/
theorem c2_witness :
    ∃ t, (scrapeLoop 1 [FetchOutcome.ok [Json.obj []]] 0 3).1 =
      RunAction.request 3 :: t :=
  (c2_auth_retry_same_page (FetchOutcome.ok [Json.obj []]) [] 1 0 3 []
    (by decide) (by decide)).2.1

/-- A credential bundle in which all four required tokens are present (the
userId token with an empty value) and both decode steps succeed. -/
def c4Bundle : List Cookie :=
  [⟨"userId", ""⟩, ⟨"ziaccesstoken", "a"⟩, ⟨"ziid", "b"⟩, ⟨"zisession", "c"⟩]

/-- C4 counterexample: on this bundle no required token is missing and no
decode step throws, yet header materialization fails, so the claimed
if-and-only-if characterization of failure is false. -/
theorem c4_counterexample :
    someRequiredTokenMissing c4Bundle = false ∧
    someDecodeStepFails c4Bundle = false ∧
    exceptFails (extractHeadersFromCookies c4Bundle) = true :=
  ⟨rfl, rfl, rfl⟩

/-- The row-writing loop returns the entry count plus the number of rows it
wrote. -/
theorem writeRows_collected (total : Nat) (results : List Json) :
    ∀ c, (writeRows total results c).2 = c + countRows (writeRows total results c).1 := by
  induction results with
  | nil => intro c; simp [writeRows, countRows]
  | cons x rest ih =>
      intro c
      by_cases hb : total ≤ c + 1
      · simp [writeRows, hb, countRows, isRowAction, List.countP_cons]
      · have h2 := ih (c + 1)
        simp only [writeRows, if_neg hb, countRows, List.countP_cons, isRowAction] at h2 ⊢
        simp at h2 ⊢
        omega

/-- Below the target, the row-writing loop writes exactly as many rows as
remain to the target, or as the page holds, whichever is smaller: row
emission stops mid-page the instant the target is reached. -/
theorem writeRows_count (total : Nat) (results : List Json) :
    ∀ c, c < total →
      countRows (writeRows total results c).1 = min (total - c) results.length := by
  induction results with
  | nil => intro c h; simp [writeRows, countRows]
  | cons x rest ih =>
      intro c h
      by_cases hb : total ≤ c + 1
      · simp only [writeRows, if_pos hb, countRows, List.countP_cons, isRowAction]
        simp
        omega
      · have h2 := ih (c + 1) (Nat.lt_of_not_le hb)
        simp only [writeRows, if_neg hb, countRows, List.countP_cons, isRowAction] at h2 ⊢
        simp at h2 ⊢
        omega

/-- The contact-writing loop returns the entry count plus the number of
rows it wrote. -/
theorem contactWrite_collected (total : Nat) (contacts : List Json) :
    ∀ c, (contactWrite total contacts c).2 =
      c + countRows (contactWrite total contacts c).1 := by
  induction contacts with
  | nil => intro c; simp [contactWrite, countRows]
  | cons x rest ih =>
      intro c
      by_cases hb : total ≤ c + 1
      · simp [contactWrite, hb, countRows, isRowAction, List.countP_cons]
      · have h2 := ih (c + 1)
        simp only [contactWrite, if_neg hb, countRows, List.countP_cons, isRowAction] at h2 ⊢
        simp at h2 ⊢
        omega

/-- Below the target, the contact-writing loop writes exactly as many rows
as remain to the target, or as the response holds, whichever is smaller. -/
theorem contactWrite_count (total : Nat) (contacts : List Json) :
    ∀ c, c < total →
      countRows (contactWrite total contacts c).1 = min (total - c) contacts.length := by
  induction contacts with
  | nil => intro c h; simp [contactWrite, countRows]
  | cons x rest ih =>
      intro c h
      by_cases hb : total ≤ c + 1
      · simp only [contactWrite, if_pos hb, countRows, List.countP_cons, isRowAction]
        simp
        omega
      · have h2 := ih (c + 1) (Nat.lt_of_not_le hb)
        simp only [contactWrite, if_neg hb, countRows, List.countP_cons, isRowAction] at h2 ⊢
        simp at h2 ⊢
        omega

/-- Loop invariant of the single-phase page loop: the collected count plus
every row the loop will still write never exceeds the target. -/
theorem scrapeLoop_rows_le (total : Nat) (outs : List FetchOutcome) :
    ∀ c page, c ≤ total →
      c + countRows (scrapeLoop total outs c page).1 ≤ total := by
  induction outs with
  | nil =>
      intro c page h
      unfold scrapeLoop
      split <;> simpa [countRows] using h
  | cons o rest ih =>
      intro c page h
      by_cases hc : total ≤ c
      · simp [scrapeLoop, hc, countRows]
        omega
      · cases o with
        | authFail =>
            have hr := ih c page h
            simp only [scrapeLoop, if_neg hc, countRows, List.countP_cons, isRowAction] at hr ⊢
            simp at hr ⊢
            omega
        | otherFail msg =>
            simp [scrapeLoop, hc, countRows, isRowAction, List.countP_cons]
            omega
        | ok results =>
            by_cases he : results.isEmpty
            · by_cases h0 : c = 0
              · subst h0
                have hc0 : ¬ total = 0 := by omega
                simp [scrapeLoop, hc, hc0, he, countRows, isRowAction, List.countP_cons]
              · simp [scrapeLoop, hc, he, h0, countRows, isRowAction, List.countP_cons]
                omega
            · have hw2 := writeRows_collected total results c
              have hcnt := writeRows_count total results c (Nat.lt_of_not_le hc)
              by_cases hw : total ≤ (writeRows total results c).2
              · simp only [scrapeLoop, if_neg hc, he, Bool.false_eq_true, if_false,
                  if_pos hw, countRows, List.countP_cons, isRowAction] at hw2 hcnt ⊢
                simp at hw2 hcnt ⊢
                omega
              · have hrec := ih (writeRows total results c).2 (page + 1)
                  (Nat.le_of_lt (Nat.lt_of_not_le hw))
                simp only [scrapeLoop, if_neg hc, he, Bool.false_eq_true, if_false,
                  if_neg hw, countRows, List.countP_cons, List.countP_append,
                  isRowAction] at hw2 hcnt hrec ⊢
                simp at hw2 hcnt hrec ⊢
                omega

/-- Loop invariant of phase 2 of the two-phase controller: the collected
count plus every row still to be written never exceeds the target. -/
theorem phase2Loop_rows_le (total : Nat) (ids : List Json) :
    ∀ outs c, c ≤ total →
      c + countRows (phase2Loop total ids outs c).1 ≤ total := by
  induction ids with
  | nil =>
      intro outs c h
      simp [phase2Loop, countRows]
      omega
  | cons i idsRest ih =>
      intro outs c h
      by_cases hc : total ≤ c
      · simp [phase2Loop, hc, countRows]
        omega
      · cases outs with
        | nil => simp [phase2Loop, hc, countRows]; omega
        | cons o orest =>
            cases o with
            | authFail =>
                have hr := ih orest c h
                simp only [phase2Loop, if_neg hc, countRows, List.countP_cons,
                  isRowAction] at hr ⊢
                simp at hr ⊢
                omega
            | otherFail msg =>
                simp [phase2Loop, hc, countRows, isRowAction, List.countP_cons]
                omega
            | ok contacts =>
                by_cases he : contacts.isEmpty
                · have hr := ih orest c h
                  simp only [phase2Loop, if_neg hc, he, if_true, countRows,
                    List.countP_cons, isRowAction] at hr ⊢
                  simp at hr ⊢
                  omega
                · have hw2 := contactWrite_collected total contacts c
                  have hcnt := contactWrite_count total contacts c (Nat.lt_of_not_le hc)
                  by_cases hw : total ≤ (contactWrite total contacts c).2
                  · simp only [phase2Loop, if_neg hc, he, Bool.false_eq_true, if_false,
                      if_pos hw, countRows, List.countP_cons, List.countP_append,
                      isRowAction] at hw2 hcnt ⊢
                    simp at hw2 hcnt ⊢
                    omega
                  · have hrec := ih orest (contactWrite total contacts c).2
                      (Nat.le_of_lt (Nat.lt_of_not_le hw))
                    simp only [phase2Loop, if_neg hc, he, Bool.false_eq_true, if_false,
                      if_neg hw, countRows, List.countP_cons, List.countP_append,
                      isRowAction] at hw2 hcnt hrec ⊢
                    simp at hw2 hcnt hrec ⊢
                    omega

/-- Phase 1 of the two-phase controller writes no CSV rows at all. -/
theorem phase1Loop_no_rows (total : Nat) (outs : List FetchOutcome) :
    ∀ ids page, countRows (phase1Loop total outs ids page).1 = 0 := by
  induction outs with
  | nil =>
      intro ids page
      unfold phase1Loop
      split <;> simp [countRows]
  | cons o rest ih =>
      intro ids page
      by_cases hc : total ≤ ids.length
      · simp [phase1Loop, hc, countRows]
      · cases o with
        | authFail =>
            have hr := ih ids page
            simp only [phase1Loop, if_neg hc, countRows, List.countP_cons,
              isRowAction] at hr ⊢
            simp at hr ⊢
            exact hr
        | otherFail msg =>
            simp [phase1Loop, hc, countRows, isRowAction, List.countP_cons]
        | ok results =>
            by_cases he : results.isEmpty
            · by_cases h0 : ids.isEmpty <;>
                simp [phase1Loop, hc, he, h0, countRows, isRowAction, List.countP_cons]
            · by_cases hi : total ≤ (collectIds total results ids).length
              · simp [phase1Loop, hc, he, hi, countRows, isRowAction, List.countP_cons]
              · have hr := ih (collectIds total results ids) (page + 1)
                simp only [phase1Loop, if_neg hc, he, Bool.false_eq_true, if_false,
                  if_neg hi, countRows, List.countP_cons, isRowAction] at hr ⊢
                simp at hr ⊢
                exact hr

/-- The whole two-phase controller never writes more rows than the target. -/
theorem contactEvents_rows_le (total : Nat) (p1outs p2outs : List FetchOutcome) :
    countRows (contactEvents total p1outs p2outs).1 ≤ total := by
  have h1 := phase1Loop_no_rows total p1outs [] 1
  have h2 := phase2Loop_rows_le total (phase1Loop total p1outs [] 1).2.1 p2outs 0
    (Nat.zero_le total)
  by_cases hx : (phase1Loop total p1outs [] 1).2.2 = LoopExit.normal <;>
    simp only [contactEvents, hx, if_true, if_false, countRows,
      List.countP_append] at h1 h2 ⊢ <;>
    simp [hx] <;>
    omega

/-- C5: the results-collected counter never exceeds the configured target.
The single-phase loop writes at most total rows in every complete or
partial run; within one page the row loops stop mid-page the instant the
target is reached, writing exactly the smaller of the remaining quota and
the page size; and the two-phase controller also never exceeds the target. -/
theorem c5_collected_le_target :
    (∀ (outs : List FetchOutcome) (total : Nat),
       countRows (scrapeLoop total outs 0 1).1 ≤ total) ∧
    (∀ (results : List Json) (total c : Nat), c < total →
       countRows (writeRows total results c).1 = min (total - c) results.length) ∧
    (∀ (contacts : List Json) (total c : Nat), c < total →
       countRows (contactWrite total contacts c).1 = min (total - c) contacts.length) ∧
    (∀ (p1outs p2outs : List FetchOutcome) (total : Nat),
       countRows (contactEvents total p1outs p2outs).1 ≤ total) := by
  refine ⟨?_, ?_, ?_, ?_⟩
  · intro outs total
    have := scrapeLoop_rows_le total outs 0 1 (Nat.zero_le total)
    omega
  · intro results total c h
    exact writeRows_count total results c h
  · intro contacts total c h
    exact contactWrite_count total contacts c h
  · intro p1outs p2outs total
    exact contactEvents_rows_le total p1outs p2outs

/-- C5 witness: with target 2 and a page of three results, exactly two rows
are written before the loop stops mid-page. -/
theorem c5_witness :
    countRows (writeRows 2 [Json.obj [], Json.obj [], Json.obj []] 0).1 =
      min (2 - 0) 3 :=
  c5_collected_le_target.2.1 [Json.obj [], Json.obj [], Json.obj []] 2 0 (by decide)

/-- Whether an action is a finished or stopped notification. -/
def isFinOrStop (a : RunAction) : Bool := isFinishedNote a || isStoppedNote a

/-- Counting with a weaker predicate counts no more elements. -/
theorem countP_le_of_imp {α : Type} (p q : α → Bool)
    (h : ∀ a, p a = true → q a = true) :
    ∀ l : List α, l.countP p ≤ l.countP q := by
  intro l
  induction l with
  | nil => simp
  | cons x xs ih =>
      by_cases hx : p x = true
      · simp [List.countP_cons, hx, h x hx]
        omega
      · simp only [List.countP_cons, Bool.not_eq_true] at hx
        simp [List.countP_cons, hx]
        split <;> omega

/-- The row-writing loop emits neither finished nor stopped. -/
theorem writeRows_no_finstop (total : Nat) (results : List Json) :
    ∀ c, (writeRows total results c).1.countP isFinOrStop = 0 := by
  induction results with
  | nil => intro c; simp [writeRows]
  | cons x rest ih =>
      intro c
      by_cases hb : total ≤ c + 1
      · simp [writeRows, hb, List.countP_cons, isFinOrStop, isFinishedNote, isStoppedNote]
      · have h2 := ih (c + 1)
        simp [writeRows, hb, List.countP_cons, isFinOrStop, isFinishedNote,
          isStoppedNote, h2]

/-- The contact-writing loop emits neither finished nor stopped. -/
theorem contactWrite_no_finstop (total : Nat) (contacts : List Json) :
    ∀ c, (contactWrite total contacts c).1.countP isFinOrStop = 0 := by
  induction contacts with
  | nil => intro c; simp [contactWrite]
  | cons x rest ih =>
      intro c
      by_cases hb : total ≤ c + 1
      · simp [contactWrite, hb, List.countP_cons, isFinOrStop, isFinishedNote,
          isStoppedNote]
      · have h2 := ih (c + 1)
        simp [contactWrite, hb, List.countP_cons, isFinOrStop, isFinishedNote,
          isStoppedNote, h2]

/-- The single-phase page loop emits neither finished nor stopped; those
notifications come only from the run state machine around it. -/
theorem scrapeLoop_no_finstop (total : Nat) (outs : List FetchOutcome) :
    ∀ c page, (scrapeLoop total outs c page).1.countP isFinOrStop = 0 := by
  induction outs with
  | nil =>
      intro c page
      unfold scrapeLoop
      split <;> simp
  | cons o rest ih =>
      intro c page
      by_cases hc : total ≤ c
      · simp [scrapeLoop, hc]
      · cases o with
        | authFail =>
            have hr := ih c page
            simp [scrapeLoop, hc, List.countP_cons, isFinOrStop, isFinishedNote,
              isStoppedNote, hr]
        | otherFail msg =>
            simp [scrapeLoop, hc, List.countP_cons, isFinOrStop, isFinishedNote,
              isStoppedNote]
        | ok results =>
            by_cases he : results.isEmpty
            · by_cases h0 : c = 0
              · subst h0
                have hc0 : ¬ total = 0 := by omega
                simp [scrapeLoop, hc, hc0, he, List.countP_cons, isFinOrStop,
                  isFinishedNote, isStoppedNote]
              · simp [scrapeLoop, hc, he, h0, List.countP_cons, isFinOrStop,
                  isFinishedNote, isStoppedNote]
            · have hw := writeRows_no_finstop total results c
              by_cases hx : total ≤ (writeRows total results c).2
              · simp [scrapeLoop, hc, he, hx, List.countP_cons, isFinOrStop,
                  isFinishedNote, isStoppedNote, hw]
              · have hr := ih (writeRows total results c).2 (page + 1)
                simp [scrapeLoop, hc, he, hx, List.countP_cons, List.countP_append,
                  isFinOrStop, isFinishedNote, isStoppedNote, hw, hr]

/-- Phase 1 of the two-phase controller emits neither finished nor stopped. -/
theorem phase1Loop_no_finstop (total : Nat) (outs : List FetchOutcome) :
    ∀ ids page, (phase1Loop total outs ids page).1.countP isFinOrStop = 0 := by
  induction outs with
  | nil =>
      intro ids page
      unfold phase1Loop
      split <;> simp
  | cons o rest ih =>
      intro ids page
      by_cases hc : total ≤ ids.length
      · simp [phase1Loop, hc]
      · cases o with
        | authFail =>
            have hr := ih ids page
            simp [phase1Loop, hc, List.countP_cons, isFinOrStop, isFinishedNote,
              isStoppedNote, hr]
        | otherFail msg =>
            simp [phase1Loop, hc, List.countP_cons, isFinOrStop, isFinishedNote,
              isStoppedNote]
        | ok results =>
            by_cases he : results.isEmpty
            · cases ids with
              | nil =>
                  have hc0 : ¬ total = 0 := by simpa using hc
                  simp [phase1Loop, hc, hc0, he, List.countP_cons, isFinOrStop,
                    isFinishedNote, isStoppedNote]
              | cons i0 irest =>
                  have h2 : ¬ total ≤ irest.length + 1 := by simpa using hc
                  simp [phase1Loop, hc, h2, he, List.countP_cons, isFinOrStop,
                    isFinishedNote, isStoppedNote]
            · by_cases hi : total ≤ (collectIds total results ids).length
              · simp [phase1Loop, hc, he, hi, List.countP_cons, isFinOrStop,
                  isFinishedNote, isStoppedNote]
              · have hr := ih (collectIds total results ids) (page + 1)
                simp [phase1Loop, hc, he, hi, List.countP_cons, isFinOrStop,
                  isFinishedNote, isStoppedNote, hr]

/-- Phase 2 of the two-phase controller emits neither finished nor stopped. -/
theorem phase2Loop_no_finstop (total : Nat) (ids : List Json) :
    ∀ outs c, (phase2Loop total ids outs c).1.countP isFinOrStop = 0 := by
  induction ids with
  | nil => intro outs c; simp [phase2Loop]
  | cons i idsRest ih =>
      intro outs c
      by_cases hc : total ≤ c
      · simp [phase2Loop, hc]
      · cases outs with
        | nil => simp [phase2Loop, hc]
        | cons o orest =>
            cases o with
            | authFail =>
                have hr := ih orest c
                simp [phase2Loop, hc, List.countP_cons, isFinOrStop, isFinishedNote,
                  isStoppedNote, hr]
            | otherFail msg =>
                simp [phase2Loop, hc, List.countP_cons, isFinOrStop, isFinishedNote,
                  isStoppedNote]
            | ok contacts =>
                by_cases he : contacts.isEmpty
                · have hr := ih orest c
                  simp [phase2Loop, hc, he, List.countP_cons, isFinOrStop,
                    isFinishedNote, isStoppedNote, hr]
                · have hw := contactWrite_no_finstop total contacts c
                  by_cases hx : total ≤ (contactWrite total contacts c).2
                  · simp [phase2Loop, hc, he, hx, List.countP_cons, List.countP_append,
                      isFinOrStop, isFinishedNote, isStoppedNote, hw]
                  · have hr := ih orest (contactWrite total contacts c).2
                    simp [phase2Loop, hc, he, hx, List.countP_cons, List.countP_append,
                      isFinOrStop, isFinishedNote, isStoppedNote, hw, hr]

/-- The whole two-phase controller emits neither finished nor stopped. -/
theorem contactEvents_no_finstop (total : Nat) (p1outs p2outs : List FetchOutcome) :
    (contactEvents total p1outs p2outs).1.countP isFinOrStop = 0 := by
  have h1 := phase1Loop_no_finstop total p1outs [] 1
  have h2 := phase2Loop_no_finstop total (phase1Loop total p1outs [] 1).2.1 p2outs 0
  by_cases hx : (phase1Loop total p1outs [] 1).2.2 = LoopExit.normal <;>
    simp [contactEvents, hx, List.countP_append, h1, h2]

/-- Appending one element puts it at the end of getLast?. -/
theorem getLast?_append_single {α : Type} (l : List α) (x : α) :
    (l ++ [x]).getLast? = some x := by
  simp

/-- C1 counterexample: a run whose first page fetch fails with a non-auth
error emits the error notification from inside the controller, the
controller returns normally, and startScraping then also emits the
finished notification: two terminal notifications, an error followed by a
finished, in one run, so the claim that every run ends in exactly one
terminal notification (and that error excludes finished) is false. -/
theorem c1_counterexample :
    (startScrapingEvents ⟨"Company Search", sampleCookies, 5, 0⟩
       [FetchOutcome.otherFail "boom"] []).1 =
      [RunAction.request 1, RunAction.note (Note.errorNote "Error: boom"),
       RunAction.note Note.finished] ∧
    countTerminal (startScrapingEvents ⟨"Company Search", sampleCookies, 5, 0⟩
       [FetchOutcome.otherFail "boom"] []).1 = 2 :=
  ⟨rfl, rfl⟩

/-- The stopped count is bounded by the finished-or-stopped count. -/
theorem countStopped_le_finstop (l : List RunAction) :
    countStopped l ≤ l.countP isFinOrStop :=
  countP_le_of_imp isStoppedNote isFinOrStop
    (by intro a ha; simp [isFinOrStop, ha]) l

/-- The finished count is bounded by the finished-or-stopped count. -/
theorem countFinished_le_finstop (l : List RunAction) :
    countFinished l ≤ l.countP isFinOrStop :=
  countP_le_of_imp isFinishedNote isFinOrStop
    (by intro a ha; simp [isFinOrStop, ha]) l

/-- C1 amended: every exit path of a started, unstopped run ends in at
least one terminal notification, but not exactly one. A failed header
materialization, or an unknown api type whose exception escapes the
controller, emits exactly one error notification. Every other run whose
controller returns emits the finished notification last, even when the
controller already emitted one or more error notifications, so error and
finished can both occur in one run; the stopped notification is emitted
only by the stop handler, never on these paths. -/
theorem c1_terminal_amended (sd : ScrapeDataM) (outs p2outs : List FetchOutcome) :
    countStopped (startScrapingEvents sd outs p2outs).1 = 0 ∧
    (∀ msg, extractHeadersFromCookies sd.cookies = Except.error msg →
       (startScrapingEvents sd outs p2outs).1 =
         [RunAction.note (Note.errorNote ("Error: " ++ msg))] ∧
       countTerminal (startScrapingEvents sd outs p2outs).1 = 1) ∧
    (∀ msg, exceptFails (extractHeadersFromCookies sd.cookies) = false →
       sd.apiType ≠ "Contact Search" → getApiUrl sd.apiType = Except.error msg →
       (startScrapingEvents sd outs p2outs).1 =
         [RunAction.note (Note.errorNote ("Error: " ++ msg))] ∧
       countTerminal (startScrapingEvents sd outs p2outs).1 = 1) ∧
    (exceptFails (extractHeadersFromCookies sd.cookies) = false →
     (sd.apiType = "Contact Search" ∨ exceptFails (getApiUrl sd.apiType) = false) →
     (startScrapingEvents sd outs p2outs).2 = LoopExit.normal →
       countFinished (startScrapingEvents sd outs p2outs).1 = 1 ∧
       (startScrapingEvents sd outs p2outs).1.getLast? =
         some (RunAction.note Note.finished)) := by
  cases hE : extractHeadersFromCookies sd.cookies with
  | error msg0 =>
      have hev : startScrapingEvents sd outs p2outs =
          ([RunAction.note (Note.errorNote ("Error: " ++ msg0))], LoopExit.normal) := by
        simp [startScrapingEvents, hE]
      refine ⟨?_, ?_, ?_, ?_⟩
      · rw [hev]
        simp [countStopped, List.countP_cons, isStoppedNote]
      · intro msg heq
        injection heq with h
        subst h
        rw [hev]
        exact ⟨rfl, by simp [countTerminal, List.countP_cons, isTerminalNote,
          isFinishedNote, isStoppedNote, isErrorNote]⟩
      · intro msg hok
        simp [exceptFails] at hok
      · intro hok
        simp [exceptFails] at hok
  | ok hdrs =>
      by_cases hA : sd.apiType = "Contact Search"
      · have hns := contactEvents_no_finstop sd.totalResults outs p2outs
        have hst : countStopped (contactEvents sd.totalResults outs p2outs).1 = 0 :=
          Nat.le_zero.mp ((countStopped_le_finstop _).trans_eq hns)
        have hfi : countFinished (contactEvents sd.totalResults outs p2outs).1 = 0 :=
          Nat.le_zero.mp ((countFinished_le_finstop _).trans_eq hns)
        by_cases hx : (contactEvents sd.totalResults outs p2outs).2 = LoopExit.normal
        · have hev : startScrapingEvents sd outs p2outs =
              ((contactEvents sd.totalResults outs p2outs).1 ++
                [RunAction.note Note.finished], LoopExit.normal) := by
            simp [startScrapingEvents, hE, hA, hx]
          refine ⟨?_, ?_, ?_, ?_⟩
          · rw [hev]
            simp [countStopped, List.countP_append, List.countP_cons, isStoppedNote]
            simpa [countStopped] using hst
          · intro msg heq
            exact Except.noConfusion heq
          · intro msg hok hA2
            exact absurd hA hA2
          · intro _ _ _
            rw [hev]
            constructor
            · simp only [countFinished, List.countP_append] at hfi ⊢
              simp [List.countP_cons, isFinishedNote, hfi]
            · exact getLast?_append_single _ _
        · have hev : startScrapingEvents sd outs p2outs =
              ((contactEvents sd.totalResults outs p2outs).1, LoopExit.incomplete) := by
            simp [startScrapingEvents, hE, hA, hx]
          refine ⟨?_, ?_, ?_, ?_⟩
          · rw [hev]
            exact hst
          · intro msg heq
            exact Except.noConfusion heq
          · intro msg hok hA2
            exact absurd hA hA2
          · intro _ _ hdone
            rw [hev] at hdone
            exact absurd hdone (by simp)
      · cases hU : getApiUrl sd.apiType with
        | error msg0 =>
            have hev : startScrapingEvents sd outs p2outs =
                ([RunAction.note (Note.errorNote ("Error: " ++ msg0))],
                 LoopExit.normal) := by
              simp [startScrapingEvents, hE, hA, hU]
            refine ⟨?_, ?_, ?_, ?_⟩
            · rw [hev]
              simp [countStopped, List.countP_cons, isStoppedNote]
            · intro msg heq
              exact Except.noConfusion heq
            · intro msg hok hA2 hU2
              injection hU2 with h
              subst h
              rw [hev]
              exact ⟨rfl, by simp [countTerminal, List.countP_cons, isTerminalNote,
                isFinishedNote, isStoppedNote, isErrorNote]⟩
            · intro _ hor _
              rcases hor with h1 | h1
              · exact absurd h1 hA
              · simp [exceptFails] at h1
        | ok url =>
            have hns := scrapeLoop_no_finstop sd.totalResults outs 0 1
            have hst : countStopped (scrapeLoop sd.totalResults outs 0 1).1 = 0 :=
              Nat.le_zero.mp ((countStopped_le_finstop _).trans_eq hns)
            have hfi : countFinished (scrapeLoop sd.totalResults outs 0 1).1 = 0 :=
              Nat.le_zero.mp ((countFinished_le_finstop _).trans_eq hns)
            by_cases hx : (scrapeLoop sd.totalResults outs 0 1).2 = LoopExit.normal
            · have hev : startScrapingEvents sd outs p2outs =
                  ((scrapeLoop sd.totalResults outs 0 1).1 ++
                    [RunAction.note Note.finished], LoopExit.normal) := by
                simp [startScrapingEvents, hE, hA, hU, hx]
              refine ⟨?_, ?_, ?_, ?_⟩
              · rw [hev]
                simp [countStopped, List.countP_append, List.countP_cons, isStoppedNote]
                simpa [countStopped] using hst
              · intro msg heq
                exact Except.noConfusion heq
              · intro msg hok hA2 hU2
                exact Except.noConfusion hU2
              · intro _ _ _
                rw [hev]
                constructor
                · simp only [countFinished, List.countP_append] at hfi ⊢
                  simp [List.countP_cons, isFinishedNote, hfi]
                · exact getLast?_append_single _ _
            · have hev : startScrapingEvents sd outs p2outs =
                  ((scrapeLoop sd.totalResults outs 0 1).1, LoopExit.incomplete) := by
                simp [startScrapingEvents, hE, hA, hU, hx]
              refine ⟨?_, ?_, ?_, ?_⟩
              · rw [hev]
                exact hst
              · intro msg heq
                exact Except.noConfusion heq
              · intro msg hok hA2 hU2
                exact Except.noConfusion hU2
              · intro _ _ hdone
                rw [hev] at hdone
                exact absurd hdone (by simp)

/-- C1 witness: a successful one-page run emits finished exactly once and
last. -/
theorem c1_witness :
    countFinished (startScrapingEvents ⟨"Company Search", sampleCookies, 1, 0⟩
      [FetchOutcome.ok [Json.obj []]] []).1 = 1 ∧
    (startScrapingEvents ⟨"Company Search", sampleCookies, 1, 0⟩
      [FetchOutcome.ok [Json.obj []]] []).1.getLast? =
      some (RunAction.note Note.finished) :=
  (c1_terminal_amended ⟨"Company Search", sampleCookies, 1, 0⟩
    [FetchOutcome.ok [Json.obj []]] []).2.2.2 rfl (Or.inr rfl) rfl

/-- C4 amended: header materialization fails exactly when a required token
is absent or empty, a decode step throws, or a decoded and quote-stripped
session-identity token comes out empty; and on success the Cookie header
is exactly the input name=value pairs joined by a semicolon and space in
the original input order, with the user header carrying the userId token. -/
theorem c4_amended (cs : List Cookie) :
    exceptFails (extractHeadersFromCookies cs) = materializeFailCond cs ∧
    (∀ hdrs, extractHeadersFromCookies cs = Except.ok hdrs →
       hdrs.lookup "Cookie" =
         some (String.intercalate "; "
           (cs.map (fun c => c.name ++ "=" ++ c.value))) ∧
       hdrs.lookup "user" = some ((cookieLookup cs "userId").getD "")) := by
  cases hd1 : percentDecode ((cookieLookup cs "ziid").getD "") with
  | none =>
      constructor
      · simp [extractHeadersFromCookies, hd1, exceptFails, materializeFailCond, Bind.bind, Except.bind]
      · intro hdrs hE
        simp [extractHeadersFromCookies, hd1, Bind.bind, Except.bind] at hE
  | some s1 =>
      cases hd2 : percentDecode ((cookieLookup cs "zisession").getD "") with
      | none =>
          constructor
          · simp [extractHeadersFromCookies, hd1, hd2, exceptFails, materializeFailCond, Bind.bind, Except.bind]
          · intro hdrs hE
            simp [extractHeadersFromCookies, hd1, hd2, Bind.bind, Except.bind] at hE
      | some s2 =>
          by_cases hif : (cookieLookup cs "userId").getD "" = "" ∨
              (cookieLookup cs "ziaccesstoken").getD "" = "" ∨
              stripQuotes s1 = "" ∨ stripQuotes s2 = ""
          · constructor
            · rcases hif with h | h | h | h <;>
                simp [extractHeadersFromCookies, hd1, hd2, exceptFails,
                  materializeFailCond, Bind.bind, Except.bind, h]
            · intro hdrs hE
              simp [extractHeadersFromCookies, hd1, hd2, hif, Bind.bind, Except.bind] at hE
          · push_neg at hif
            obtain ⟨h1, h2, h3, h4⟩ := hif
            have hn : ¬ ((cookieLookup cs "userId").getD "" = "" ∨
                (cookieLookup cs "ziaccesstoken").getD "" = "" ∨
                stripQuotes s1 = "" ∨ stripQuotes s2 = "") := by
              push_neg
              exact ⟨h1, h2, h3, h4⟩
            constructor
            · simp [extractHeadersFromCookies, hd1, hd2, hn, exceptFails,
                materializeFailCond, Bind.bind, Except.bind, h1, h2, h3, h4]
            · intro hdrs hE
              simp only [extractHeadersFromCookies, hd1, hd2, Bind.bind, Except.bind] at hE
              rw [if_neg hn] at hE
              injection hE with h
              subst h
              constructor <;> rfl

/-- C4 witness: the Cookie and user headers of a successfully materialized
bundle. -/
theorem c4_witness :
    ((extractHeadersFromCookies sampleCookies).toOption.getD []).lookup "Cookie" =
      some (String.intercalate "; "
        (sampleCookies.map (fun c => c.name ++ "=" ++ c.value))) ∧
    ((extractHeadersFromCookies sampleCookies).toOption.getD []).lookup "user" =
      some ((cookieLookup sampleCookies "userId").getD "") :=
  (c4_amended sampleCookies).2 _ rfl

/-- Field access on a record with one binding prepended. -/
theorem jget_cons (f k : String) (x : Json) (l : List (String × Json)) :
    jget (Json.obj ((f, x) :: l)) k = if f = k then x else jget (Json.obj l) k := by
  by_cases h : f = k
  · simp [jget, List.find?, h]
  · have hb : (f == k) = false := beq_eq_false_iff_ne.mpr h
    simp [jget, List.find?, hb, h]

/-- Searching a filtered list with a predicate that entails the filter is
the same as searching the original list. -/
theorem find?_filter_of_imp {α : Type} (q r : α → Bool)
    (h : ∀ x, q x = true → r x = true) :
    ∀ l : List α, (l.filter r).find? q = l.find? q := by
  intro l
  induction l with
  | nil => simp
  | cons a tl ih =>
      by_cases hr : r a = true
      · by_cases hq : q a = true <;> simp [List.filter_cons, hr, List.find?, hq, ih]
      · have hq : ¬ q a = true := fun hq => hr (h a hq)
        simp [List.filter_cons, hr, List.find?, hq, ih]

/-- Field access on a record with all bindings of one name removed. -/
theorem jget_removeField (l : List (String × Json)) (f k : String) :
    jget (Json.obj (removeField l f)) k =
      if k = f then Json.undef else jget (Json.obj l) k := by
  by_cases h : k = f
  · subst h
    have hnone : (removeField l k).find? (fun p => p.1 == k) = none := by
      apply List.find?_eq_none.mpr
      intro x hx
      simp only [removeField] at hx
      have hmem := List.of_mem_filter hx
      simpa using hmem
    simp [jget, hnone]
  · have hsame := find?_filter_of_imp (fun p => p.1 == k) (fun p => !(p.1 == f))
      (by
        intro p hp
        have hp2 : p.1 = k := by simpa using hp
        simp [hp2, h])
      l
    simp [jget, removeField, h, hsame]

/-- C10: for each of the four variants, a source field that is present at
top level with a falsy scalar value (0, false, null or the empty string)
normalizes exactly as if the field were absent: the produced row is
identical, with the empty string in the affected cells. -/
theorem c10_falsy_equals_absent (v : String)
    (hv : v = "Company Search" ∨ v = "Person Search" ∨ v = "Contact Search" ∨
      v = "Scoops Search")
    (fs : List (String × Json)) (f : String) (x : Json)
    (hx : falsyScalarValue x) :
    transformResultToCsvRow v (Json.obj ((f, x) :: removeField fs f)) =
      transformResultToCsvRow v (Json.obj (removeField fs f)) := by
  have hxt : x.truthy = false := by
    rcases hx with rfl | rfl | rfl | rfl <;> rfl
  have hr : ∀ k d, jor (jget (Json.obj ((f, x) :: removeField fs f)) k) d =
      jor (jget (Json.obj (removeField fs f)) k) d := by
    intro k d
    rw [jget_cons]
    by_cases h : f = k
    · subst h
      rw [jget_removeField]
      have hu : Json.undef.truthy = false := rfl
      simp [jor, hxt, hu]
    · simp [h]
  have hoc : ∀ k k2, optChain (jget (Json.obj ((f, x) :: removeField fs f)) k) k2 =
      optChain (jget (Json.obj (removeField fs f)) k) k2 := by
    intro k k2
    rw [jget_cons]
    by_cases h : f = k
    · subst h
      rw [jget_removeField]
      rcases hx with rfl | rfl | rfl | rfl <;>
        simp [optChain, jget, Json.isNullish]
    · simp [h]
  rcases hv with rfl | rfl | rfl | rfl <;>
    simp [transformResultToCsvRow, notNullish, Json.isNullish, Bind.bind,
      Except.bind, hr, hoc]

/-- C10 witness: a company record with employees equal to 0 yields the very
row an employees-free record yields. -/
theorem c10_witness :
    transformResultToCsvRow "Company Search" (Json.obj [("employees", Json.num 0)]) =
      transformResultToCsvRow "Company Search" (Json.obj []) :=
  c10_falsy_equals_absent "Company Search" (Or.inl rfl) [] "employees" (Json.num 0)
    (Or.inl rfl)

/-- Unpacking a well-formed scoop code field: the defaulted chain value is
an array of non-nullish entries. -/
theorem scoopFieldOk_elim (key : String) (base : Json)
    (h : scoopFieldOk key base = true) :
    ∃ xs, jor (optChain base key) (Json.arr []) = Json.arr xs ∧
      xs.all (fun x => !x.isNullish) = true := by
  unfold scoopFieldOk at h
  cases hm : jor (optChain base key) (Json.arr []) with
  | arr xs =>
      rw [hm] at h
      exact ⟨xs, rfl, h⟩
  | undef => rw [hm] at h; exact Bool.noConfusion h
  | null => rw [hm] at h; exact Bool.noConfusion h
  | bool b => rw [hm] at h; exact Bool.noConfusion h
  | num n => rw [hm] at h; exact Bool.noConfusion h
  | str s => rw [hm] at h; exact Bool.noConfusion h
  | obj fields => rw [hm] at h; exact Bool.noConfusion h

/-- On a list of non-nullish codes the element translation cannot throw
and produces the translated names. -/
theorem scoopNamesM_ok (tbl : List (String × String)) :
    ∀ xs : List Json, xs.all (fun x => !x.isNullish) = true →
      scoopNamesM tbl xs =
        Except.ok (xs.map (fun t => (tbl.lookup (jsToStr t)).getD "Unknown")) := by
  intro xs
  induction xs with
  | nil => intro h; rfl
  | cons a tl ih =>
      intro h
      simp only [List.all_cons, Bool.and_eq_true] at h
      obtain ⟨h1, h2⟩ := h
      have ha : a.isNullish = false := by simpa using h1
      simp [scoopNamesM, ha, ih h2, Bind.bind, Except.bind]

/-- On a well-formed code list, map-and-join succeeds with the translated,
comma-joined names. -/
theorem jmapJoin_ok (tbl : List (String × String)) (xs : List Json)
    (h : xs.all (fun x => !x.isNullish) = true) :
    jmapJoin tbl (Json.arr xs) =
      Except.ok (String.intercalate ", "
        (xs.map (fun t => (tbl.lookup (jsToStr t)).getD "Unknown"))) := by
  simp [jmapJoin, scoopNamesM_ok tbl xs h, Bind.bind, Except.bind]

/-- A cell defaulted to a string literal is never null or undefined. -/
theorem jor_str_not_nullish (a : Json) (s : String) :
    (jor a (Json.str s)).isNullish = false := by
  unfold jor
  split
  · cases a <;> simp_all [Json.truthy, Json.isNullish]
  · rfl

/-- C6 counterexample: a scoop record whose scoopTypes.scoopType field is a
truthy non-array makes the normalizer call map on a string, which throws,
so normalization is not a total function on raw records. -/
theorem c6_counterexample :
    transformResultToCsvRow "Scoops Search"
      (Json.obj [("scoopTypes", Json.obj [("scoopType", Json.str "x")])]) =
      Except.error "TypeError" := rfl

/-- C6 amended: on records (JSON objects) normalization is total for the
company, person and contact variants, and total for the scoop variant
whenever its two code fields are absent, falsy, or arrays of non-null
entries (otherwise the map or toString call throws, as the counterexample
shows). Every produced row is exactly the fixed column list of its variant
paired with source values defaulted to the empty string: the column names
are the variant's fixed schema in order, no cell is ever null or
undefined, and every cell whose extracted source value is absent or falsy
is the empty string. -/
theorem c6_normalizer_amended :
    (∀ fs, transformResultToCsvRow "Company Search" (Json.obj fs) =
       Except.ok (rowFromSpecs companyCellSpecs (Json.obj fs))) ∧
    (∀ fs, transformResultToCsvRow "Person Search" (Json.obj fs) =
       Except.ok (rowFromSpecs personCellSpecs (Json.obj fs))) ∧
    (∀ fs, transformResultToCsvRow "Contact Search" (Json.obj fs) =
       Except.ok (rowFromSpecs contactCellSpecs (Json.obj fs))) ∧
    (∀ fs, scoopFieldOk "scoopType" (jget (Json.obj fs) "scoopTypes") = true →
       scoopFieldOk "scoopTopic" (jget (Json.obj fs) "scoopTopics") = true →
       transformResultToCsvRow "Scoops Search" (Json.obj fs) =
         Except.ok (rowFromSpecs scoopsCellSpecs (Json.obj fs))) ∧
    (companyCellSpecs.map Prod.fst = companyColumns ∧
     personCellSpecs.map Prod.fst = personColumns ∧
     contactCellSpecs.map Prod.fst = contactColumns ∧
     scoopsCellSpecs.map Prod.fst = scoopsColumns) ∧
    (∀ (specs : List (String × (Json → Json))) (r : Json),
       (rowFromSpecs specs r).map Prod.fst = specs.map Prod.fst) ∧
    (∀ (specs : List (String × (Json → Json))) (r : Json),
       ∀ p ∈ rowFromSpecs specs r, p.2.isNullish = false) ∧
    (∀ (specs : List (String × (Json → Json))) (r : Json) col ext,
       (col, ext) ∈ specs → (ext r).truthy = false →
       (col, Json.str "") ∈ rowFromSpecs specs r) := by
  refine ⟨fun fs => rfl, fun fs => rfl, fun fs => rfl, ?_, ⟨rfl, rfl, rfl, rfl⟩,
    ?_, ?_, ?_⟩
  · intro fs h1 h2
    obtain ⟨xs1, hm1, ha1⟩ := scoopFieldOk_elim "scoopType"
      (jget (Json.obj fs) "scoopTypes") h1
    obtain ⟨xs2, hm2, ha2⟩ := scoopFieldOk_elim "scoopTopic"
      (jget (Json.obj fs) "scoopTopics") h2
    simp [transformResultToCsvRow, notNullish, Json.isNullish, Bind.bind,
      Except.bind, hm1, hm2, jmapJoin_ok scoopTypeMapping xs1 ha1,
      jmapJoin_ok scoopTopicMapping xs2 ha2, rowFromSpecs, scoopsCellSpecs,
      scoopJoinNames]
  · intro specs r
    induction specs with
    | nil => rfl
    | cons a tl ih => simp [rowFromSpecs] at ih ⊢

  · intro specs r p hp
    simp only [rowFromSpecs, List.mem_map] at hp
    obtain ⟨q, hq, rfl⟩ := hp
    exact jor_str_not_nullish (q.2 r) ""
  · intro specs r col ext hmem hfal
    exact List.mem_map.mpr ⟨(col, ext), hmem, by simp [jor, hfal]⟩

/-- C6 witness: a well-formed scoop record normalizes to its full fixed
row. -/
theorem c6_witness :
    transformResultToCsvRow "Scoops Search"
      (Json.obj [("scoopTypes", Json.obj [("scoopType", Json.arr [Json.num 11])])]) =
      Except.ok (rowFromSpecs scoopsCellSpecs
        (Json.obj [("scoopTypes", Json.obj [("scoopType", Json.arr [Json.num 11])])])) :=
  c6_normalizer_amended.2.2.2.1 _ rfl rfl

/-- On records without undefined values the deep copy keeps every field. -/
theorem roundTripFields_eq (fs : List (String × Json))
    (h : noUndefFields fs = true) :
    roundTripFields fs = fs.map (fun q => (q.1, jsonRoundTrip q.2)) := by
  induction fs with
  | nil => rfl
  | cons a tl ih =>
      obtain ⟨k, v⟩ := a
      simp only [noUndefFields, Bool.and_eq_true] at h
      obtain ⟨h1, h2⟩ := h
      cases v with
      | undef => simp [Json.noUndef] at h1
      | null => simp [roundTripFields, ih h2]
      | bool b => simp [roundTripFields, ih h2]
      | num n => simp [roundTripFields, ih h2]
      | str s => simp [roundTripFields, ih h2]
      | arr xs => simp [roundTripFields, ih h2]
      | obj gs => simp [roundTripFields, ih h2]

/-- On arrays without undefined values the deep copy keeps every element. -/
theorem roundTripElems_eq (xs : List Json) (h : noUndefElems xs = true) :
    roundTripElems xs = xs.map jsonRoundTrip := by
  induction xs with
  | nil => rfl
  | cons a tl ih =>
      simp only [noUndefElems, Bool.and_eq_true] at h
      obtain ⟨h1, h2⟩ := h
      cases a with
      | undef => simp [Json.noUndef] at h1
      | null => simp [roundTripElems, ih h2]
      | bool b => simp [roundTripElems, ih h2]
      | num n => simp [roundTripElems, ih h2]
      | str s => simp [roundTripElems, ih h2]
      | arr ys => simp [roundTripElems, ih h2]
      | obj gs => simp [roundTripElems, ih h2]

/-- The field rewriting loop as a map over the bindings. -/
theorem setPageFields_eq_map (page : Nat) (fs : List (String × Json)) :
    setPageFields page fs = fs.map (fun q =>
      if lowerKey q.1 = "page" then (q.1, Json.num page)
      else (q.1, setPageInPayload page q.2)) := by
  induction fs with
  | nil => rfl
  | cons a tl ih => simp [setPageFields, ih]

/-- The element rewriting loop as a map over the elements. -/
theorem setPageElems_eq_map (page : Nat) (xs : List Json) :
    setPageElems page xs = xs.map (setPageInPayload page) := by
  induction xs with
  | nil => rfl
  | cons a tl ih => simp [setPageElems, ih]

/-- On an undefined-free record, the page-rewritten deep copy maps every
binding: page-named fields become the page number, the rest are rewritten
recursively. -/
theorem bpp_obj (fs : List (String × Json)) (p : Nat)
    (h : Json.noUndef (Json.obj fs) = true) :
    buildPagePayload (Json.obj fs) p =
      Json.obj (fs.map (fun q =>
        if lowerKey q.1 = "page" then (q.1, Json.num p)
        else (q.1, buildPagePayload q.2 p))) := by
  have hf : noUndefFields fs = true := h
  simp only [buildPagePayload, jsonRoundTrip, setPageInPayload]
  rw [roundTripFields_eq fs hf, setPageFields_eq_map, List.map_map]
  rfl

/-- On an undefined-free array, the page-rewritten deep copy maps every
element recursively. -/
theorem bpp_arr (xs : List Json) (p : Nat)
    (h : Json.noUndef (Json.arr xs) = true) :
    buildPagePayload (Json.arr xs) p =
      Json.arr (xs.map (fun x => buildPagePayload x p)) := by
  have hx : noUndefElems xs = true := h
  simp only [buildPagePayload, jsonRoundTrip, setPageInPayload]
  rw [roundTripElems_eq xs hx, setPageElems_eq_map, List.map_map]
  rfl

/-- Scalars pass through the deep copy and the page rewrite unchanged. -/
theorem bpp_scalar (j : Json) (p : Nat) (h : j.isScalar = true) :
    buildPagePayload j p = j := by
  cases j <;> first | rfl | exact Bool.noConfusion h

/-- Values bound inside an undefined-free record are undefined-free. -/
theorem noUndefFields_mem (fs : List (String × Json))
    (h : noUndefFields fs = true) :
    ∀ q ∈ fs, Json.noUndef q.2 = true := by
  induction fs with
  | nil => intro q hq; cases hq
  | cons a tl ih =>
      simp only [noUndefFields, Bool.and_eq_true] at h
      intro q hq
      rcases List.mem_cons.mp hq with rfl | hq2
      · exact h.1
      · exact ih h.2 q hq2

/-- Elements of an undefined-free array are undefined-free. -/
theorem noUndefElems_mem (xs : List Json) (h : noUndefElems xs = true) :
    ∀ x ∈ xs, Json.noUndef x = true := by
  induction xs with
  | nil => intro x hx; cases hx
  | cons a tl ih =>
      simp only [noUndefElems, Bool.and_eq_true] at h
      intro x hx
      rcases List.mem_cons.mp hx with rfl | hx2
      · exact h.1
      · exact ih h.2 x hx2

/-- Searching by key commutes with a key-preserving map of the bindings. -/
theorem find?_map_keypres (l : List (String × Json))
    (g : String × Json → String × Json) (hg : ∀ q, (g q).1 = q.1)
    (k : String) :
    (l.map g).find? (fun q => q.1 == k) =
      (l.find? (fun q => q.1 == k)).map g := by
  induction l with
  | nil => rfl
  | cons a tl ih =>
      by_cases hk : (a.1 == k) = true
      · simp [List.find?, hg, hk]
      · simp only [Bool.not_eq_true] at hk
        simp [List.find?, hg, hk, ih]

/-- Following a concatenation of paths is the bind of following them in
turn. -/
theorem getPath_append (a b : List PathStep) :
    ∀ t : Json, getPath t (a ++ b) = (getPath t a).bind (fun u => getPath u b) := by
  induction a with
  | nil => intro t; rfl
  | cons s rest ih =>
      intro t
      simp only [List.cons_append, getPath]
      cases getStep t s with
      | none => rfl
      | some v => exact ih v

/-- Subtrees of an undefined-free tree are undefined-free. -/
theorem noUndef_getPath :
    ∀ (path : List PathStep) (t : Json), Json.noUndef t = true →
      ∀ u, getPath t path = some u → Json.noUndef u = true := by
  intro path
  induction path with
  | nil =>
      intro t ht u hu
      injection hu with h
      exact h ▸ ht
  | cons s rest ih =>
      intro t ht u hu
      simp only [getPath] at hu
      cases hs : getStep t s with
      | none => rw [hs] at hu; exact Option.noConfusion hu
      | some v =>
          rw [hs] at hu
          have hv : Json.noUndef v = true := by
            cases s with
            | field k =>
                cases t with
                | obj fs =>
                    simp only [getStep] at hs
                    cases hf : fs.find? (fun q => q.1 == k) with
                    | none => rw [hf] at hs; exact Option.noConfusion hs
                    | some q =>
                        rw [hf] at hs
                        injection hs with h2
                        have hm := List.mem_of_find?_eq_some hf
                        exact h2 ▸ noUndefFields_mem fs ht q hm
                | undef => exact Option.noConfusion hs
                | null => exact Option.noConfusion hs
                | bool b => exact Option.noConfusion hs
                | num n => exact Option.noConfusion hs
                | str s2 => exact Option.noConfusion hs
                | arr xs => exact Option.noConfusion hs
            | index i =>
                cases t with
                | arr xs =>
                    simp only [getStep] at hs
                    have hm := List.get?_mem hs
                    exact noUndefElems_mem xs ht v hm
                | undef => exact Option.noConfusion hs
                | null => exact Option.noConfusion hs
                | bool b => exact Option.noConfusion hs
                | num n => exact Option.noConfusion hs
                | str s2 => exact Option.noConfusion hs
                | obj fs => exact Option.noConfusion hs
          exact ih v hv u hu

/-- Along a path that crosses no page-named field, the page-rewritten deep
copy of an undefined-free template holds exactly the page-rewritten deep
copy of what the template holds there. -/
theorem getPath_bpp_pageFree (p : Nat) :
    ∀ (path : List PathStep) (t : Json), Json.noUndef t = true →
      pathPageFree path = true →
      getPath (buildPagePayload t p) path =
        (getPath t path).map (fun u => buildPagePayload u p) := by
  intro path
  induction path with
  | nil => intro t ht hp; rfl
  | cons s rest ih =>
      intro t ht hp
      simp only [pathPageFree, List.all_cons, Bool.and_eq_true] at hp
      obtain ⟨hs, hrest⟩ := hp
      have hrest2 : pathPageFree rest = true := hrest
      cases s with
      | field k =>
          have hk : ¬ (lowerKey k = "page") := by
            simpa [stepPageFree] using hs
          cases t with
          | obj fs =>
              rw [bpp_obj fs p ht]
              simp only [getPath, getStep]
              rw [find?_map_keypres fs
                (fun q => if lowerKey q.1 = "page" then (q.1, Json.num p)
                  else (q.1, buildPagePayload q.2 p))
                (by
                  intro q
                  by_cases hq : lowerKey q.1 = "page" <;> simp [hq]) k]
              cases hf : fs.find? (fun q => q.1 == k) with
              | none => rfl
              | some q =>
                  have hq1 : q.1 = k := by
                    have := List.find?_some hf
                    simpa using this
                  have hm := List.mem_of_find?_eq_some hf
                  have hnu := noUndefFields_mem fs ht q hm
                  simp only [Option.map]
                  rw [hq1, if_neg hk]
                  exact ih q.2 hnu hrest2
          | arr xs =>
              rw [bpp_arr xs p ht]
              simp [getPath, getStep]
          | undef => exact absurd ht (by simp [Json.noUndef])
          | null => simp [buildPagePayload, jsonRoundTrip, setPageInPayload,
              getPath, getStep]
          | bool b => simp [buildPagePayload, jsonRoundTrip, setPageInPayload,
              getPath, getStep]
          | num n => simp [buildPagePayload, jsonRoundTrip, setPageInPayload,
              getPath, getStep]
          | str s2 => simp [buildPagePayload, jsonRoundTrip, setPageInPayload,
              getPath, getStep]
      | index i =>
          cases t with
          | arr xs =>
              rw [bpp_arr xs p ht]
              simp only [getPath, getStep]
              rw [List.get?_map]
              cases hg : xs.get? i with
              | none => rfl
              | some x =>
                  have hm := List.get?_mem hg
                  have hnu := noUndefElems_mem xs ht x hm
                  simp only [Option.map]
                  exact ih x hnu hrest2
          | obj fs =>
              rw [bpp_obj fs p ht]
              simp [getPath, getStep]
          | undef => exact absurd ht (by simp [Json.noUndef])
          | null => simp [buildPagePayload, jsonRoundTrip, setPageInPayload,
              getPath, getStep]
          | bool b => simp [buildPagePayload, jsonRoundTrip, setPageInPayload,
              getPath, getStep]
          | num n => simp [buildPagePayload, jsonRoundTrip, setPageInPayload,
              getPath, getStep]
          | str s2 => simp [buildPagePayload, jsonRoundTrip, setPageInPayload,
              getPath, getStep]

/-- One page-named field step on a rewritten undefined-free value: present
fields carry the page number, absent fields stay absent. -/
theorem getPath_bpp_page_single (p : Nat) (u : Json) (k : String)
    (hnu : Json.noUndef u = true) (hk : lowerKey k = "page") :
    getPath (buildPagePayload u p) [PathStep.field k] =
      (getPath u [PathStep.field k]).map (fun _ => Json.num p) := by
  cases u with
  | obj fs =>
      rw [bpp_obj fs p hnu]
      simp only [getPath, getStep]
      rw [find?_map_keypres fs
        (fun q => if lowerKey q.1 = "page" then (q.1, Json.num p)
          else (q.1, buildPagePayload q.2 p))
        (by
          intro q
          by_cases hq : lowerKey q.1 = "page" <;> simp [hq]) k]
      cases hf : fs.find? (fun q => q.1 == k) with
      | none => rfl
      | some q =>
          have hq1 : q.1 = k := by
            have := List.find?_some hf
            simpa using this
          simp only [Option.map]
          rw [hq1, if_pos hk]
  | arr xs =>
      rw [bpp_arr xs p hnu]
      simp [getPath, getStep]
  | undef => exact absurd hnu (by simp [Json.noUndef])
  | null => rfl
  | bool b => rfl
  | num n => rfl
  | str s2 => rfl

/-- A page-named field with page-free ancestry: in the rewritten copy it
carries the page number whenever the template has the field at all. -/
theorem getPath_bpp_pageField (p : Nat) (t : Json) (pre : List PathStep)
    (k : String) (ht : Json.noUndef t = true) (hp : pathPageFree pre = true)
    (hk : lowerKey k = "page") :
    getPath (buildPagePayload t p) (pre ++ [PathStep.field k]) =
      (getPath t (pre ++ [PathStep.field k])).map (fun _ => Json.num p) := by
  rw [getPath_append, getPath_append, getPath_bpp_pageFree p pre t ht hp]
  cases hu : getPath t pre with
  | none => rfl
  | some u =>
      have hnu := noUndef_getPath pre t ht u hu
      simp only [Option.map, Option.bind]
      exact getPath_bpp_page_single p u k hnu hk

/-- C7 counterexample: in a template where one page field is nested inside
the value of another, the rewrite replaces the outer field with the page
number and discards the nested structure, so the sibling field named
other, which the claim says is untouched, is gone from the copy; the
literal claim is false. -/
theorem c7_counterexample : ¬ PageRewriteClaim nestedPageTemplate 7 := by
  intro h
  have h2 := h.2 [PathStep.field "page"] "other" (Json.num 4)
    (by decide) (by decide) (by rfl)
  have h3 : (none : Option Json) = some (Json.num 4) := h2
  exact Option.noConfusion h3

/-- C7 amended: for every undefined-free template and page number, the
rewritten deep copy sets every page-named field whose ancestry contains no
page-named field to the page number; every scalar-valued field reached
through a fully page-free path is unchanged; and everything lying beneath
a page-named field (with page-free ancestry up to it) is removed together
with the replaced value. -/
theorem c7_page_rewrite_amended (t : Json) (p : Nat)
    (ht : Json.noUndef t = true) :
    (∀ path k, pathPageFree path = true → lowerKey k = "page" →
       getPath (buildPagePayload t p) (path ++ [PathStep.field k]) =
         (getPath t (path ++ [PathStep.field k])).map (fun _ => Json.num p)) ∧
    (∀ path k v, pathPageFree path = true → ¬(lowerKey k = "page") →
       v.isScalar = true → getPath t (path ++ [PathStep.field k]) = some v →
       getPath (buildPagePayload t p) (path ++ [PathStep.field k]) = some v) ∧
    (∀ p1 k s2 p2, pathPageFree p1 = true → lowerKey k = "page" →
       getPath (buildPagePayload t p) (p1 ++ PathStep.field k :: s2 :: p2) =
         none) := by
  refine ⟨?_, ?_, ?_⟩
  · intro path k hfree hk
    exact getPath_bpp_pageField p t path k ht hfree hk
  · intro path k v hfree hk hscal hval
    have hfree2 : pathPageFree (path ++ [PathStep.field k]) = true := by
      simp [pathPageFree, stepPageFree] at hfree ⊢
      exact ⟨hfree, hk⟩
    rw [getPath_bpp_pageFree p (path ++ [PathStep.field k]) t ht hfree2, hval]
    simp [bpp_scalar v p hscal]
  · intro p1 k s2 p2 hfree hk
    have hsplit : p1 ++ PathStep.field k :: s2 :: p2 =
        (p1 ++ [PathStep.field k]) ++ (s2 :: p2) := by simp
    rw [hsplit, getPath_append, getPath_bpp_pageField p t p1 k ht hfree hk]
    cases getPath t (p1 ++ [PathStep.field k]) with
    | none => rfl
    | some u =>
        simp only [Option.map, Option.bind]
        cases s2 <;> rfl

/-- C7 witness: a page field nested one level deep, with a sibling, in a
concrete template. -/
theorem c7_witness :
    getPath (buildPagePayload
      (Json.obj [("filters", Json.obj [("page", Json.num 1), ("keep", Json.str "x")])]) 9)
      ([PathStep.field "filters"] ++ [PathStep.field "page"]) =
      (getPath
        (Json.obj [("filters", Json.obj [("page", Json.num 1), ("keep", Json.str "x")])])
        ([PathStep.field "filters"] ++ [PathStep.field "page"])).map
        (fun _ => Json.num 9) :=
  (c7_page_rewrite_amended
    (Json.obj [("filters", Json.obj [("page", Json.num 1), ("keep", Json.str "x")])])
    9 rfl).1 [PathStep.field "filters"] "page" (by decide) rfl
